import Mathlib

/-!
# fcgi_util.c: socket-address construction and the FastCGI server registry

A shallow embedding of `src/fcgi_util.c`.

Conventions of the embedding.

* A C string is the list of its characters before the terminating NUL; reading
  at the end of the list is reading the terminator.  A pointer into a string is
  the suffix it points at.
* The linked list `fcgi_servers` is a `List fcgi_server`, head first; the
  `next` field of a node is the tail of the list.
* C lengths (`size_t`, and the `int` they are stored in) are natural numbers.
-/

namespace FcgiUtil

/-! ## Server registry -/

/-- Socket address, Unix-domain view (`struct sockaddr_un`): family tag and the
string held in `sun_path`. -/
structure sockaddr_un where
  sun_family : Nat
  sun_path : List Char
deriving DecidableEq, Repr

/-- Socket address, Inet view (`struct sockaddr_in`): family tag, the two bytes
of `sin_port` in memory order, the four bytes of `sin_addr` as one number in
memory order, and the padding `sin_zero`. -/
structure sockaddr_in where
  sin_family : Nat
  sin_port : Nat × Nat
  sin_addr : Nat
  sin_zero : Nat
deriving DecidableEq, Repr

/-- What the storage behind a `struct sockaddr *` holds, seen through the cast
the code applies to it. -/
inductive sockaddr where
  | un (a : sockaddr_un)
  | inet (a : sockaddr_in)
deriving DecidableEq, Repr

/-- Modelled from the spec: the record type `fcgi_server` is declared in fcgi.h,
which is not among the sources.  A record carries its filesystem path key, its
socket address with the serialized length, and the wrapper identity. -/
structure fcgi_server where
  fs_path : List Char
  socket_addr : Option sockaddr
  socket_addr_len : Int
  uid : Nat
  gid : Nat
deriving DecidableEq, Repr

/-- Modelled from the spec: `apr_cpystrn(dst, src, dst_size)` of the APR library
copies at most `dst_size - 1` characters of `src` and terminates the copy
("truncated to that bound").  The result is the string left in `dst`. -/
def apr_cpystrn (src : List Char) (dst_size : Nat) : List Char :=
  src.take (dst_size - 1)

/-- The loop of `ap_no2slash`; `in_run` says that the character last copied was
a slash, so that further slashes are skipped. -/
def no2slash_from : Bool → List Char → List Char
  | _, [] => []
  | in_run, c :: cs =>
    if c = '/' then
      if in_run then no2slash_from true cs else '/' :: no2slash_from true cs
    else c :: no2slash_from false cs

/-- Modelled from the spec: `ap_no2slash(name)` of the Apache core rewrites the
string in place with every run of slashes collapsed to one ("collapse duplicate
separators"). -/
def ap_no2slash (name : List Char) : List Char :=
  no2slash_from false name

/-- The inner loop of `fcgi_util_fs_get_by_id`,
`for (i = 0; fs_path[i] && path[i]; ++i) if (fs_path[i] != path[i]) break;`.
The result is the pair of suffixes `(fs_path + i, path + i)` at loop exit. -/
def fs_path_scan : List Char → List Char → List Char × List Char
  | f :: fs, c :: cs => if f ≠ c then (f :: fs, c :: cs) else fs_path_scan fs cs
  | fs, cs => (fs, cs)

/-- The two tests that follow the inner loop: `fs_path[i]` must be the
terminator, and `path[i]` must be the terminator or a slash. -/
def fs_path_matches (fs_path path : List Char) : Bool :=
  match fs_path_scan fs_path path with
  | (_ :: _, _) => false
  | ([], []) => true
  | ([], c :: _) => decide (c = '/')

/-- The loop `for (s = fcgi_servers; s != NULL; s = s->next)` over the normalized
buffer `path`: the first node passing both tests is returned, NULL otherwise. -/
def fs_find (path : List Char) : List fcgi_server → Option fcgi_server
  | [] => none
  | s :: next => if fs_path_matches s.fs_path path then some s else fs_find path next

/-- Translation of `fcgi_util_fs_get_by_id`.  `FCGI_MAXPATH` (from fcgi.h) is the
size of the working buffer and `fcgi_servers` the global list head. -/
def fcgi_util_fs_get_by_id (FCGI_MAXPATH : Nat) (fcgi_servers : List fcgi_server)
    (ePath : List Char) : Option fcgi_server :=
  let path := apr_cpystrn ePath FCGI_MAXPATH
  let path := ap_no2slash path
  fs_find path fcgi_servers

/-- Translation of `fcgi_util_fs_add`: `s->next = fcgi_servers; fcgi_servers = s`.
The result is the new value of the global `fcgi_servers`. -/
def fcgi_util_fs_add (fcgi_servers : List fcgi_server) (s : fcgi_server) : List fcgi_server :=
  s :: fcgi_servers

/-- The contents of the working buffer `path` when the scan starts. -/
def normalized_path (FCGI_MAXPATH : Nat) (ePath : List Char) : List Char :=
  ap_no2slash (apr_cpystrn ePath FCGI_MAXPATH)

/-- The match condition in the words of the specification: `fs_path` is a
prefix of the normalized path and the character right after it is the end of
the string or a slash. -/
def spec_matches (fs_path path : List Char) : Prop :=
  fs_path <+: path ∧
    (path.drop fs_path.length = [] ∨ (path.drop fs_path.length).head? = some '/')

instance (fs_path path : List Char) : Decidable (spec_matches fs_path path) := by
  unfold spec_matches; infer_instance

/-- A record with the given path and no address, for examples. -/
def mk_server (fs_path : String) (uid : Nat) : fcgi_server :=
  { fs_path := fs_path.toList, socket_addr := none, socket_addr_len := 0, uid := uid, gid := 0 }

/-! ## Address builder -/

/-- Platform constants the code takes from the system headers: the two family
tags, `sizeof(sun_path)`, the offset of `sun_path` in `struct sockaddr_un`
(the header size `SUN_LEN` adds to the path length) and
`sizeof(struct sockaddr_in)`. -/
structure Platform where
  AF_UNIX : Nat
  AF_INET : Nat
  sizeof_sun_path : Nat
  offsetof_sun_path : Nat
  sizeof_sockaddr_in : Nat
deriving DecidableEq, Repr

/-- The entry `gethostbyname` returns: `h_addr` is `h_addr_list[0]` and
`h_addr_more` holds the entries after it, up to the terminating null pointer.
A name without any address is reported by a NULL result, never by an entry. -/
structure hostent where
  h_addr : Nat
  h_addr_more : List Nat
deriving DecidableEq, Repr

/-- The two library calls `convert_string_to_in_addr` consults: `inet_aton`
(`none` when it returns 0, otherwise the address it stores) and `gethostbyname`
(`none` when it returns NULL). -/
structure Netdb where
  inet_aton : List Char → Option Nat
  gethostbyname : List Char → Option hostent

/-- The pool the storage and the messages are allocated from; of its state only
the address the next `apr_pcalloc` hands out is kept. -/
structure apr_pool_t where
  brk : Nat
deriving DecidableEq, Repr

/-- A non-null `struct sockaddr *`: the address it holds and the contents of the
storage at that address. -/
structure sockaddr_ptr where
  addr : Nat
  mem : sockaddr
deriving DecidableEq, Repr

/-- Modelled from the spec: the two fields of `fcgi_request` (declared in fcgi.h)
that the builder writes, the destination slot: the socket address pointer
(`none` is NULL) and the serialized length. -/
structure fcgi_request where
  socket_addr : Option sockaddr_ptr
  socket_addr_len : Int
deriving DecidableEq, Repr

/-- The terminator `*port_str++ = 0` writes over the colon. -/
def NUL : Char := Char.ofNat 0

/-- The function `strlen`. -/
def strlen (s : List Char) : Nat := s.length

/-- The function `strchr(s, c)`: the offset of the first `c` in `s`, `none` for
a NULL result. -/
def strchr : List Char → Char → Option Nat
  | [], _ => none
  | x :: xs, c => if x = c then some 0 else (strchr xs c).map (· + 1)

/-- The function `apr_pstrcat`: the concatenation of its arguments. -/
def apr_pstrcat (parts : List (List Char)) : List Char := parts.flatten

/-- The macro `SUN_LEN`: offset of `sun_path` plus the length of the string in it. -/
def SUN_LEN (pf : Platform) (a : sockaddr_un) : Int :=
  ((pf.offsetof_sun_path + strlen a.sun_path : Nat) : Int)

/-- The function `htons`: the two bytes of the port, high byte first in memory. -/
def htons (port : Nat) : Nat × Nat := (port / 256 % 256, port % 256)

/-- The function `isspace` in the C locale. -/
def isspace (c : Char) : Bool :=
  c.toNat = 32 || (9 ≤ c.toNat && c.toNat ≤ 13)

/-- The function `isdigit`. -/
def isdigit (c : Char) : Bool := 48 ≤ c.toNat && c.toNat ≤ 57

/-- The digit loop of `strtol` in base 10: the value of the leading digits. -/
def strtol_digits : Nat → List Char → Nat
  | acc, [] => acc
  | acc, c :: cs => if isdigit c then strtol_digits (acc * 10 + (c.toNat - 48)) cs else acc

/-- The function `strtol(s, NULL, 10)` with a 64-bit `long`: leading white space,
an optional sign, the leading digits; a value out of range is clamped. -/
def strtol (s : List Char) : Int :=
  let v : Int :=
    match s.dropWhile isspace with
    | [] => 0
    | c :: cs =>
      if c = '-' then - (strtol_digits 0 cs : Int)
      else if c = '+' then (strtol_digits 0 cs : Int)
      else (strtol_digits 0 (c :: cs) : Int)
  max (-(2 ^ 63 : Int)) (min v (2 ^ 63 - 1))

/-- Conversion of a `long` to a 32-bit `int`. -/
def to_int (v : Int) : Int := (v + 2 ^ 31) % 2 ^ 32 - 2 ^ 31

/-- The function `atoi(s)`, that is `(int) strtol(s, NULL, 10)`. -/
def atoi (s : List Char) : Int := to_int (strtol s)

/-- Conversion of an `int` to `unsigned short`: reduction modulo 2^16. -/
def to_ushort (v : Int) : Nat := (v % 65536).toNat

/-- What the builder functions leave behind: the returned message (`none` is a
NULL return, success) and the two output parameters. -/
structure addr_out where
  err : Option (List Char)
  socket_addr : Option sockaddr_ptr
  socket_addr_len : Int
deriving DecidableEq, Repr

/-- Translation of `fcgi_util_socket_make_domain_addr`. -/
def fcgi_util_socket_make_domain_addr (pf : Platform) (p : apr_pool_t)
    (socket_addr : Option sockaddr_ptr) (socket_addr_len : Int)
    (socket_path : List Char) : addr_out :=
  let socket_pathLen := strlen socket_path
  if socket_pathLen ≥ pf.sizeof_sun_path then
    { err := some (apr_pstrcat ["path \"".toList, socket_path,
        "\" is too long for a Domain socket".toList]),
      socket_addr := socket_addr, socket_addr_len := socket_addr_len }
  else
    -- apr_pcalloc for a NULL slot, memset of the existing storage otherwise
    let addr := match socket_addr with
      | none => p.brk
      | some q => q.addr
    let sa : sockaddr_un := { sun_family := pf.AF_UNIX, sun_path := socket_path }
    { err := none, socket_addr := some { addr := addr, mem := sockaddr.un sa },
      socket_addr_len := SUN_LEN pf sa }

/-- Translation of `convert_string_to_in_addr`: the returned status and the
contents of `*addr` after the call. -/
def convert_string_to_in_addr (nd : Netdb) (hostname : List Char) (addr : Nat) : Int × Nat :=
  match nd.inet_aton hostname with
  | some a => (0, a)
  | none =>
    match nd.gethostbyname hostname with
    | none => (-1, addr)
    | some hp =>
      let count := 1 + hp.h_addr_more.length
      (if count = 1 then 0 else -1, hp.h_addr)

/-- Translation of `fcgi_util_socket_make_inet_addr`. -/
def fcgi_util_socket_make_inet_addr (pf : Platform) (nd : Netdb) (p : apr_pool_t)
    (socket_addr : Option sockaddr_ptr) (socket_addr_len : Int)
    (host : List Char) (port : Nat) : addr_out :=
  let addr := match socket_addr with
    | none => p.brk
    | some q => q.addr
  let sa : sockaddr_in :=
    { sin_family := pf.AF_INET, sin_port := htons port, sin_addr := 0, sin_zero := 0 }
  let r := convert_string_to_in_addr nd host sa.sin_addr
  let sa : sockaddr_in := { sa with sin_addr := r.2 }
  if r.1 = -1 then
    { err := some (apr_pstrcat ["failed to resolve \"".toList, host,
        "\" to exactly one IP address".toList]),
      socket_addr := some { addr := addr, mem := sockaddr.inet sa },
      socket_addr_len := socket_addr_len }
  else
    { err := none, socket_addr := some { addr := addr, mem := sockaddr.inet sa },
      socket_addr_len := pf.sizeof_sockaddr_in }

/-- What `fcgi_util_socket_make_addr` leaves behind: the returned message, the
request with its destination slot, and the contents of the caller's buffer
`server` (`none` for a NULL pointer). -/
structure make_addr_out where
  err : Option (List Char)
  fr : fcgi_request
  server : Option (List Char)
deriving DecidableEq, Repr

/-- Translation of `fcgi_util_socket_make_addr`. -/
def fcgi_util_socket_make_addr (pf : Platform) (nd : Netdb) (p : apr_pool_t)
    (fr : fcgi_request) (server : Option (List Char)) : make_addr_out :=
  match server with
  | none => { err := some "empty".toList, fr := fr, server := none }
  | some [] => { err := some "empty".toList, fr := fr, server := some [] }
  | some (c :: cs) =>
    if c = '/' then
      let o := fcgi_util_socket_make_domain_addr pf p fr.socket_addr fr.socket_addr_len (c :: cs)
      { err := o.err,
        fr := { socket_addr := o.socket_addr, socket_addr_len := o.socket_addr_len },
        server := some (c :: cs) }
    else
      match strchr (c :: cs) ':' with
      | none => { err := some "no port specified".toList, fr := fr, server := some (c :: cs) }
      | some k =>
        -- the colon is overwritten; `server` now ends there and `port_str` starts after it
        let buf := (c :: cs).set k NUL
        let host := buf.take k
        let port_str := buf.drop (k + 1)
        let port : Nat := to_ushort (atoi port_str)
        if port ≤ 0 then
          { err := some "invalid port sepcified".toList, fr := fr, server := some buf }
        else
          let o := fcgi_util_socket_make_inet_addr pf nd p fr.socket_addr fr.socket_addr_len
            host port
          { err := o.err,
            fr := { socket_addr := o.socket_addr, socket_addr_len := o.socket_addr_len },
            server := some buf }

/-- The message for an empty or absent endpoint (EmptyEndpoint). -/
def msg_empty : List Char := "empty".toList

/-- The message for an endpoint without a colon (MissingPort). -/
def msg_no_port : List Char := "no port specified".toList

/-- The message for a port that is zero (InvalidPort), spelled as in the code. -/
def msg_invalid_port : List Char := "invalid port sepcified".toList

/-- The message for a path that does not fit (PathTooLong). -/
def msg_too_long (socket_path : List Char) : List Char :=
  "path \"".toList ++ socket_path ++ "\" is too long for a Domain socket".toList

/-- The message for a host without exactly one address (HostResolutionFailed). -/
def msg_resolve (host : List Char) : List Char :=
  "failed to resolve \"".toList ++ host ++ "\" to exactly one IP address".toList

/-- The platform constants of Linux on x86-64, for examples. -/
def linux : Platform :=
  { AF_UNIX := 1, AF_INET := 2, sizeof_sun_path := 108, offsetof_sun_path := 2,
    sizeof_sockaddr_in := 16 }

/-- A resolver that knows no literal address and no name, for examples. -/
def no_netdb : Netdb := { inet_aton := fun _ => none, gethostbyname := fun _ => none }

/-- A resolver that maps every name to the single address 10.0.0.5, for examples. -/
def one_netdb : Netdb :=
  { inet_aton := fun _ => none,
    gethostbyname := fun _ => some { h_addr := 0x0a000005, h_addr_more := [] } }

/-- An empty destination slot, for examples. -/
def empty_slot : fcgi_request := { socket_addr := none, socket_addr_len := 0 }

/-- The number a string of decimal digits denotes, most significant digit
first. -/
def decimal_value (ds : List Char) : Nat :=
  Nat.ofDigits 10 (ds.reverse.map (fun c => c.toNat - 48))

/-- The invariant of the destination slot in the words of the specification:
the recorded serialized length matches the variant populated in the slot, the
offset of `sun_path` plus the length of the path for a Unix-domain address and
`sizeof(struct sockaddr_in)` for an Inet address. -/
def slot_len_ok (pf : Platform) (fr : fcgi_request) : Prop :=
  match fr.socket_addr with
  | none => True
  | some q =>
    match q.mem with
    | sockaddr.un a => fr.socket_addr_len = ((pf.offsetof_sun_path + a.sun_path.length : Nat) : Int)
    | sockaddr.inet _ => fr.socket_addr_len = (pf.sizeof_sockaddr_in : Int)

instance (pf : Platform) (fr : fcgi_request) : Decidable (slot_len_ok pf fr) :=
  match fr with
  | ⟨none, _⟩ => isTrue (by simp [slot_len_ok])
  | ⟨some ⟨_, sockaddr.un a⟩, len⟩ =>
    decidable_of_iff (len = ((pf.offsetof_sun_path + a.sun_path.length : Nat) : Int))
      (by simp [slot_len_ok])
  | ⟨some ⟨_, sockaddr.inet _⟩, len⟩ =>
    decidable_of_iff (len = (pf.sizeof_sockaddr_in : Int)) (by simp [slot_len_ok])

/-- A slot that holds the Unix-domain address "/a" with its length on Linux,
for examples. -/
def unix_slot : fcgi_request :=
  { socket_addr := some ⟨64, sockaddr.un ⟨1, "/a".toList⟩⟩, socket_addr_len := 4 }

/-- A resolver that knows no literal address and gives every name the two
addresses 10.0.0.5 and 10.0.0.6, for examples. -/
def two_netdb : Netdb :=
  { inet_aton := fun _ => none,
    gethostbyname := fun _ => some { h_addr := 0x0a000005, h_addr_more := [0x0a000006] } }

/-! ## The literal addresses of `inet_aton` -/

/-- The value of `c` as a digit in base 8, 10 or 16, as `strtoul` reads it. -/
def digit_value (base : Nat) (c : Char) : Option Nat :=
  if isdigit c then
    if c.toNat - 48 < base then some (c.toNat - 48) else none
  else if base = 16 ∧ 97 ≤ c.toNat ∧ c.toNat ≤ 102 then some (c.toNat - 87)
  else if base = 16 ∧ 65 ≤ c.toNat ∧ c.toNat ≤ 70 then some (c.toNat - 55)
  else none

/-- The digit loop of `strtoul`: the value read and the text left (`endp`). -/
def strtoul_digits (base : Nat) : Nat → List Char → Nat × List Char
  | acc, [] => (acc, [])
  | acc, c :: cs =>
    match digit_value base c with
    | some d => strtoul_digits base (acc * base + d) cs
    | none => (acc, c :: cs)

/-- The call `strtoul(cp, &endp, 0)` on a text that starts with a digit: "0x"
or "0X" before a hexadecimal digit selects base 16, another leading "0" base 8,
anything else base 10.  The value is not bounded here; the caller rejects what
does not fit in 32 bits. -/
def strtoul_base0 (s : List Char) : Nat × List Char :=
  match s with
  | [] => (0, [])
  | c0 :: cs =>
    if c0 = '0' then
      match cs with
      | c1 :: c2 :: rest =>
        if (c1 = 'x' ∨ c1 = 'X') ∧ (digit_value 16 c2).isSome then
          strtoul_digits 16 0 (c2 :: rest)
        else strtoul_digits 8 0 (c0 :: cs)
      | _ => strtoul_digits 8 0 (c0 :: cs)
    else strtoul_digits 10 0 (c0 :: cs)

/-- The address with the bytes `a`, `b`, `c`, `d` in memory order, as one number. -/
def in_addr_of_bytes (a b c d : Nat) : Nat := a * 2 ^ 24 + b * 2 ^ 16 + c * 2 ^ 8 + d

/-- The bytes `inet_aton` has stored so far, as the leading bytes of the address. -/
def in_addr_of_parts : List Nat → Nat
  | [] => 0
  | [a] => in_addr_of_bytes a 0 0 0
  | [a, b] => in_addr_of_bytes a b 0 0
  | a :: b :: c :: _ => in_addr_of_bytes a b c 0

/-- The largest last number `inet_aton` accepts after `n` stored bytes. -/
def in_addr_last_max (n : Nat) : Nat :=
  match n with
  | 0 => 0xffffffff
  | 1 => 0xffffff
  | 2 => 0xffff
  | _ => 0xff

/-- The loop of `inet_aton`: a number is read; after a dot it is stored as the
next byte (at most three bytes, each at most 255) and the loop goes on; otherwise
it is the last number, which may be followed by white space only and fills the
bytes that are left.  The loop body runs at most four times. -/
def inet_aton_loop : Nat → List Nat → List Char → Option Nat
  | 0, _, _ => none
  | fuel + 1, parts, cp =>
    match cp with
    | [] => none
    | c :: _ =>
      if isdigit c = false then none
      else if (strtoul_base0 cp).1 > 0xffffffff then none
      else
        match (strtoul_base0 cp).2 with
        | [] =>
          if (strtoul_base0 cp).1 > in_addr_last_max parts.length then none
          else some (in_addr_of_parts parts ||| (strtoul_base0 cp).1)
        | e :: cp2 =>
          if e = '.' then
            if parts.length > 2 ∨ (strtoul_base0 cp).1 > 0xff then none
            else inet_aton_loop fuel (parts ++ [(strtoul_base0 cp).1]) cp2
          else if isspace e = false then none
          else if (strtoul_base0 cp).1 > in_addr_last_max parts.length then none
          else some (in_addr_of_parts parts ||| (strtoul_base0 cp).1)

/-- Modelled from the spec: `inet_aton` of the C library is not among the
sources.  A literal dotted-decimal IPv4 address is accepted and is the address
used; the other literal forms of the library (fewer than four numbers, octal
and hexadecimal numbers) are accepted as the library documents them.  The
result is `none` when the library returns 0. -/
def inet_aton (cp : List Char) : Option Nat :=
  inet_aton_loop 4 [] cp

/-- The writing of `v` as a decimal numeral `s`: digits only, and no leading
zero except in "0" itself. -/
def is_decimal_numeral (s : List Char) (v : Nat) : Prop :=
  s ≠ [] ∧ (∀ c ∈ s, isdigit c = true) ∧ (s.head? = some '0' → s = ['0'])
    ∧ decimal_value s = v

instance (s : List Char) (v : Nat) : Decidable (is_decimal_numeral s v) := by
  unfold is_decimal_numeral; infer_instance

/-- A component of a dotted-decimal string read as the claim states it: a
non-empty string of decimal digits (leading zeros allowed) that denotes `v`. -/
def is_decimal_component (s : List Char) (v : Nat) : Prop :=
  s ≠ [] ∧ (∀ c ∈ s, isdigit c = true) ∧ decimal_value s = v

instance (s : List Char) (v : Nat) : Decidable (is_decimal_component s v) := by
  unfold is_decimal_component; infer_instance

/-- The library resolver with a name lookup `g`. -/
def libc_netdb (g : List Char → Option hostent) : Netdb :=
  { inet_aton := inet_aton, gethostbyname := g }

/-! ## The storage of the slot, byte by byte

The builders above keep of the storage the address structure that is written
to it.  The definitions below follow the same source lines on the bytes of the
storage, to tell which bytes a call writes and which it leaves: memory is the
byte at each offset from the address the slot holds, one `Char` of a path
being one byte. -/

/-- The call `memset(dst, 0, n)`: the bytes at the offsets below `n` become 0. -/
def memset_zero (m : Nat → Nat) (n : Nat) : Nat → Nat :=
  fun i => if i < n then 0 else m i

/-- A store of the bytes `bs` at the offset `off`. -/
def write_bytes (m : Nat → Nat) (off : Nat) (bs : List Nat) : Nat → Nat :=
  fun i => if off ≤ i ∧ i < off + bs.length then bs.getD (i - off) 0 else m i

/-- The bytes of a family tag stored in `width` bytes, low byte first (the
member `sun_family` or `sin_family` at offset 0, as on Linux). -/
def family_bytes (width value : Nat) : List Nat :=
  (List.range width).map (fun k => value / 256 ^ k % 256)

/-- The four bytes of an address held as one number in memory order. -/
def in_addr_bytes (v : Nat) : List Nat :=
  [v / 2 ^ 24 % 256, v / 2 ^ 16 % 256, v / 2 ^ 8 % 256, v % 256]

/-- The size of `struct sockaddr_un`, whose last member is `sun_path`. -/
def sizeof_sockaddr_un (pf : Platform) : Nat := pf.offsetof_sun_path + pf.sizeof_sun_path

/-- A non-null `struct sockaddr *` with the memory at its address. -/
structure mem_ptr where
  addr : Nat
  mem : Nat → Nat

/-- The destination slot with the memory behind its pointer. -/
structure mem_request where
  socket_addr : Option mem_ptr
  socket_addr_len : Int

/-- What the builder functions leave behind, with the memory behind the pointer. -/
structure mem_addr_out where
  err : Option (List Char)
  socket_addr : Option mem_ptr
  socket_addr_len : Int

/-- What `fcgi_util_socket_make_addr` leaves behind, with the memory behind the
pointer of the slot. -/
structure mem_make_addr_out where
  err : Option (List Char)
  fr : mem_request
  server : Option (List Char)

/-- The storage the builders work on (lines 31-34 and 77-80): for a NULL slot a
block of `size` zero bytes from `apr_pcalloc` (the offsets from `size` on lie
outside that block and are given the value 0), otherwise the memory the slot
points at with its first `size` bytes set to zero by `memset`. -/
def slot_storage (p : apr_pool_t) (socket_addr : Option mem_ptr) (size : Nat) : mem_ptr :=
  match socket_addr with
  | none => { addr := p.brk, mem := fun _ => 0 }
  | some q => { addr := q.addr, mem := memset_zero q.mem size }

/-- Translation of `fcgi_util_socket_make_domain_addr` on the bytes of the
storage: `sun_family` is stored at offset 0 and `strcpy` stores the path and
its terminator from the offset of `sun_path` on. -/
def fcgi_util_socket_make_domain_addr_mem (pf : Platform) (p : apr_pool_t)
    (socket_addr : Option mem_ptr) (socket_addr_len : Int)
    (socket_path : List Char) : mem_addr_out :=
  let socket_pathLen := strlen socket_path
  if socket_pathLen ≥ pf.sizeof_sun_path then
    { err := some (apr_pstrcat ["path \"".toList, socket_path,
        "\" is too long for a Domain socket".toList]),
      socket_addr := socket_addr, socket_addr_len := socket_addr_len }
  else
    let q := slot_storage p socket_addr (sizeof_sockaddr_un pf)
    let m := write_bytes q.mem 0 (family_bytes pf.offsetof_sun_path pf.AF_UNIX)
    let m := write_bytes m pf.offsetof_sun_path (socket_path.map Char.toNat ++ [0])
    { err := none, socket_addr := some { addr := q.addr, mem := m },
      socket_addr_len := ((pf.offsetof_sun_path + strlen socket_path : Nat) : Int) }

/-- Translation of `fcgi_util_socket_make_inet_addr` on the bytes of the
storage: `sin_family` at offset 0, `sin_port` at offset 2, `sin_addr` at
offset 4, where `convert_string_to_in_addr` finds the zero left by the
clearing and stores what it resolves. -/
def fcgi_util_socket_make_inet_addr_mem (pf : Platform) (nd : Netdb) (p : apr_pool_t)
    (socket_addr : Option mem_ptr) (socket_addr_len : Int)
    (host : List Char) (port : Nat) : mem_addr_out :=
  let q := slot_storage p socket_addr pf.sizeof_sockaddr_in
  let m := write_bytes q.mem 0 (family_bytes 2 pf.AF_INET)
  let m := write_bytes m 2 [(htons port).1, (htons port).2]
  let r := convert_string_to_in_addr nd host 0
  let m := write_bytes m 4 (in_addr_bytes r.2)
  if r.1 = -1 then
    { err := some (apr_pstrcat ["failed to resolve \"".toList, host,
        "\" to exactly one IP address".toList]),
      socket_addr := some { addr := q.addr, mem := m },
      socket_addr_len := socket_addr_len }
  else
    { err := none, socket_addr := some { addr := q.addr, mem := m },
      socket_addr_len := pf.sizeof_sockaddr_in }

/-- Translation of `fcgi_util_socket_make_addr` on the bytes of the storage; the
dispatch is the one of `fcgi_util_socket_make_addr` above. -/
def fcgi_util_socket_make_addr_mem (pf : Platform) (nd : Netdb) (p : apr_pool_t)
    (fr : mem_request) (server : Option (List Char)) : mem_make_addr_out :=
  match server with
  | none => { err := some "empty".toList, fr := fr, server := none }
  | some [] => { err := some "empty".toList, fr := fr, server := some [] }
  | some (c :: cs) =>
    if c = '/' then
      let o := fcgi_util_socket_make_domain_addr_mem pf p fr.socket_addr fr.socket_addr_len
        (c :: cs)
      { err := o.err,
        fr := { socket_addr := o.socket_addr, socket_addr_len := o.socket_addr_len },
        server := some (c :: cs) }
    else
      match strchr (c :: cs) ':' with
      | none => { err := some "no port specified".toList, fr := fr, server := some (c :: cs) }
      | some k =>
        let buf := (c :: cs).set k NUL
        let host := buf.take k
        let port_str := buf.drop (k + 1)
        let port : Nat := to_ushort (atoi port_str)
        if port ≤ 0 then
          { err := some "invalid port sepcified".toList, fr := fr, server := some buf }
        else
          let o := fcgi_util_socket_make_inet_addr_mem pf nd p fr.socket_addr
            fr.socket_addr_len host port
          { err := o.err,
            fr := { socket_addr := o.socket_addr, socket_addr_len := o.socket_addr_len },
            server := some buf }

/-- The size of the structure a call builds: `struct sockaddr_un` for an
endpoint that begins with a slash, `struct sockaddr_in` otherwise. -/
def sizeof_built (pf : Platform) (server : Option (List Char)) : Nat :=
  match server with
  | some (c :: _) => if c = '/' then sizeof_sockaddr_un pf else pf.sizeof_sockaddr_in
  | _ => pf.sizeof_sockaddr_in

/-- The bytes of an address structure in memory, from offset 0 on: the family
tag, then the path of a Unix-domain address, or the port and the address of an
Inet address.  The bytes after them, up to the size of the structure, are 0. -/
def sockaddr_bytes (pf : Platform) : sockaddr → List Nat
  | sockaddr.un a => family_bytes pf.offsetof_sun_path a.sun_family ++ a.sun_path.map Char.toNat
  | sockaddr.inet a =>
    family_bytes 2 a.sin_family ++ [a.sin_port.1, a.sin_port.2] ++ in_addr_bytes a.sin_addr

/-- A slot in which the Unix-domain address "/var/run/fastcgi/app.sock" has been
built from the empty slot, for examples. -/
def unix_mem_slot : mem_request :=
  (fcgi_util_socket_make_addr_mem linux no_netdb ⟨100⟩
    { socket_addr := none, socket_addr_len := 0 }
    (some "/var/run/fastcgi/app.sock".toList)).fr

/-! ## Lemmas on the registry scan -/

theorem fs_path_matches_iff (fs_path path : List Char) :
    fs_path_matches fs_path path = true ↔ spec_matches fs_path path := by
  induction fs_path generalizing path with
  | nil =>
    cases path with
    | nil => simp [fs_path_matches, fs_path_scan, spec_matches]
    | cons c cs => simp [fs_path_matches, fs_path_scan, spec_matches]
  | cons a fs ih =>
    cases path with
    | nil => simp [fs_path_matches, fs_path_scan, spec_matches]
    | cons c cs =>
      by_cases h : a = c
      · subst h
        have := ih cs
        simp only [fs_path_matches, fs_path_scan, spec_matches] at this ⊢
        simpa [List.prefix_cons_inj] using this
      · have h2 : ¬ (a :: fs <+: c :: cs) := by
          intro hp
          rw [List.prefix_cons_iff] at hp
          rcases hp with hp | ⟨t, ht, _⟩
          · cases hp
          · injection ht with h1 _
            exact h h1
        simp [fs_path_matches, fs_path_scan, spec_matches, h, h2]

theorem fs_find_eq_find (path : List Char) (reg : List fcgi_server) :
    fs_find path reg = reg.find? (fun s => fs_path_matches s.fs_path path) := by
  induction reg with
  | nil => rfl
  | cons s next ih =>
    by_cases h : fs_path_matches s.fs_path path = true
    · simp [fs_find, h]
    · simp [fs_find, h, ih]

theorem apr_cpystrn_of_lt (src : List Char) (dst_size : Nat) (h : src.length < dst_size) :
    apr_cpystrn src dst_size = src := by
  unfold apr_cpystrn
  exact List.take_of_length_le (by omega)

theorem fs_get_by_id_eq_find (M : Nat) (reg : List fcgi_server) (ePath : List Char) :
    fcgi_util_fs_get_by_id M reg ePath
      = reg.find? (fun s => decide (spec_matches s.fs_path (normalized_path M ePath))) := by
  unfold fcgi_util_fs_get_by_id normalized_path
  rw [fs_find_eq_find]
  congr 1
  funext s
  rw [Bool.eq_iff_iff]
  simp [fs_path_matches_iff]

theorem fs_get_by_id_cons_of_matches (M : Nat) (reg : List fcgi_server) (s : fcgi_server)
    (ePath : List Char) (h : spec_matches s.fs_path (normalized_path M ePath)) :
    fcgi_util_fs_get_by_id M (s :: reg) ePath = some s := by
  rw [fs_get_by_id_eq_find]
  simp [h]

theorem fs_get_by_id_cons_of_not_matches (M : Nat) (reg : List fcgi_server) (s : fcgi_server)
    (ePath : List Char) (h : ¬ spec_matches s.fs_path (normalized_path M ePath)) :
    fcgi_util_fs_get_by_id M (s :: reg) ePath = fcgi_util_fs_get_by_id M reg ePath := by
  rw [fs_get_by_id_eq_find, fs_get_by_id_eq_find]
  simp [h]

theorem fs_get_by_id_append_of_not_matches (M : Nat) (pre reg : List fcgi_server)
    (ePath : List Char)
    (h : ∀ r ∈ pre, ¬ spec_matches r.fs_path (normalized_path M ePath)) :
    fcgi_util_fs_get_by_id M (pre ++ reg) ePath = fcgi_util_fs_get_by_id M reg ePath := by
  induction pre with
  | nil => rfl
  | cons a pre ih =>
    rw [List.cons_append, fs_get_by_id_cons_of_not_matches _ _ _ _ (h a (by simp))]
    exact ih (fun r hr => h r (by simp [hr]))

theorem fs_get_by_id_some_matches (M : Nat) (reg : List fcgi_server) (ePath : List Char)
    (s : fcgi_server) (h : fcgi_util_fs_get_by_id M reg ePath = some s) :
    spec_matches s.fs_path (normalized_path M ePath) := by
  rw [fs_get_by_id_eq_find] at h
  simpa using List.find?_some h

theorem fs_add_eq (reg : List fcgi_server) (s : fcgi_server) :
    fcgi_util_fs_add reg s = s :: reg := rfl

theorem foldl_fs_add (reg added : List fcgi_server) :
    added.foldl fcgi_util_fs_add reg = added.reverse ++ reg := by
  induction added generalizing reg with
  | nil => rfl
  | cons a added ih => simp [List.foldl_cons, ih, fcgi_util_fs_add]

theorem normalized_path_of_lt (M : Nat) (ePath : List Char) (h : ePath.length < M) :
    normalized_path M ePath = ap_no2slash ePath := by
  unfold normalized_path
  rw [apr_cpystrn_of_lt _ _ h]

theorem spec_matches_self (f : List Char) : spec_matches f f := by
  simp [spec_matches]

theorem spec_matches_slash (f rest : List Char) : spec_matches f (f ++ '/' :: rest) := by
  simp [spec_matches]

theorem not_spec_matches_other (f rest : List Char) (c : Char) (hc : c ≠ '/') :
    ¬ spec_matches f (f ++ c :: rest) := by
  simp [spec_matches, hc]

/-! ## The claims on the registry -/

/-- C1: for every registry and every requested path, `fcgi_util_fs_get_by_id`
returns the first record in list order whose `fs_path` is a prefix of the
normalized requested path with the end of the string or a slash right after
the prefix; a returned record splits the list into records that do not match,
the record itself, and the rest; and the result is NULL exactly when no record
of the registry satisfies the condition. -/
theorem fs_get_by_id_first_match (M : Nat) (reg : List fcgi_server) (ePath : List Char) :
    fcgi_util_fs_get_by_id M reg ePath
        = reg.find? (fun s => decide (spec_matches s.fs_path (normalized_path M ePath)))
    ∧ (∀ s, fcgi_util_fs_get_by_id M reg ePath = some s ↔
        spec_matches s.fs_path (normalized_path M ePath) ∧
          ∃ before after, reg = before ++ s :: after ∧
            ∀ r ∈ before, ¬ spec_matches r.fs_path (normalized_path M ePath))
    ∧ (fcgi_util_fs_get_by_id M reg ePath = none ↔
        ∀ r ∈ reg, ¬ spec_matches r.fs_path (normalized_path M ePath)) := by
  refine ⟨fs_get_by_id_eq_find M reg ePath, ?_, ?_⟩
  · intro s
    rw [fs_get_by_id_eq_find, List.find?_eq_some]
    simp
  · rw [fs_get_by_id_eq_find, List.find?_eq_none]
    simp

/-- C2: with a working buffer that holds the example paths (`FCGI_MAXPATH` above
their length), after add(A) then add(B) with A.fs_path = "/app" and
B.fs_path = "/app/v2", the lookup of "/app/v2/x" returns B and the lookup of
"/app/other" returns A.  In general, when B is added after A (other records
`mid` may be added in between) every requested path that matches B returns B,
and every requested path that matches A but neither B nor a record added in
between returns A; and when A.fs_path followed by a slash is a prefix of
B.fs_path, every path that matches B matches A as well, so that it is the
order of insertion that makes B win. -/
theorem fs_lookup_nested_paths (M : Nat) (hM : 10 < M) (reg mid : List fcgi_server)
    (A B : fcgi_server) :
    (A.fs_path = "/app".toList → B.fs_path = "/app/v2".toList →
      fcgi_util_fs_get_by_id M (fcgi_util_fs_add (fcgi_util_fs_add reg A) B) "/app/v2/x".toList
          = some B
      ∧ fcgi_util_fs_get_by_id M (fcgi_util_fs_add (fcgi_util_fs_add reg A) B) "/app/other".toList
          = some A)
    ∧ (∀ ePath, spec_matches B.fs_path (normalized_path M ePath) →
        fcgi_util_fs_get_by_id M
          (fcgi_util_fs_add (mid.foldl fcgi_util_fs_add (fcgi_util_fs_add reg A)) B) ePath
          = some B)
    ∧ (∀ ePath, spec_matches A.fs_path (normalized_path M ePath) →
        ¬ spec_matches B.fs_path (normalized_path M ePath) →
        (∀ r ∈ mid, ¬ spec_matches r.fs_path (normalized_path M ePath)) →
        fcgi_util_fs_get_by_id M
          (fcgi_util_fs_add (mid.foldl fcgi_util_fs_add (fcgi_util_fs_add reg A)) B) ePath
          = some A)
    ∧ (∀ path, A.fs_path ++ ['/'] <+: B.fs_path → spec_matches B.fs_path path →
        spec_matches A.fs_path path) := by
  refine ⟨?_, ?_, ?_, ?_⟩
  · intro hA hB
    have h1 : normalized_path M "/app/v2/x".toList = "/app/v2/x".toList := by
      rw [normalized_path_of_lt _ _ (by simp; omega)]; decide
    have h2 : normalized_path M "/app/other".toList = "/app/other".toList := by
      rw [normalized_path_of_lt _ _ (by simp; omega)]; decide
    constructor
    · apply fs_get_by_id_cons_of_matches
      rw [h1, hB]; decide
    · rw [fs_add_eq, fs_add_eq, fs_get_by_id_cons_of_not_matches, fs_get_by_id_cons_of_matches]
      · rw [h2, hA]; decide
      · rw [h2, hB]; decide
  · intro ePath hB
    exact fs_get_by_id_cons_of_matches _ _ _ _ hB
  · intro ePath hA hB hmid
    rw [foldl_fs_add, fs_add_eq, fs_add_eq, fs_get_by_id_cons_of_not_matches _ _ _ _ hB,
      fs_get_by_id_append_of_not_matches, fs_get_by_id_cons_of_matches _ _ _ _ hA]
    intro r hr
    exact hmid r (List.mem_reverse.mp hr)
  · intro path hAB hB
    obtain ⟨x, hx⟩ := hAB
    obtain ⟨⟨y, hy⟩, _⟩ := hB
    have hp : path = A.fs_path ++ '/' :: (x ++ y) := by
      rw [← hy, ← hx]; simp
    rw [hp]
    exact spec_matches_slash _ _

/-- Witness of C2 with `FCGI_MAXPATH` = 4096 on an empty registry. -/
theorem fs_lookup_nested_paths_witness :
    fcgi_util_fs_get_by_id 4096
        (fcgi_util_fs_add (fcgi_util_fs_add [] (mk_server "/app" 1)) (mk_server "/app/v2" 2))
        "/app/v2/x".toList = some (mk_server "/app/v2" 2)
    ∧ fcgi_util_fs_get_by_id 4096
        (fcgi_util_fs_add (fcgi_util_fs_add [] (mk_server "/app" 1)) (mk_server "/app/v2" 2))
        "/app/other".toList = some (mk_server "/app" 1) :=
  (fs_lookup_nested_paths 4096 (by decide) [] [] (mk_server "/app" 1) (mk_server "/app/v2" 2)).1
    rfl rfl

/-- C3: `fcgi_util_fs_add` prepends, the previous list staying as it was and no
check being made; so when one or more records `dups` that all have the same
`fs_path` are added in sequence to any registry, the lookup of every path that
matches that `fs_path` returns the one added last. -/
theorem fs_add_prepends_latest_wins (M : Nat) (reg dups : List fcgi_server) (s : fcgi_server)
    (f ePath : List Char) (hne : dups ≠ [])
    (hdup : ∀ r ∈ dups, r.fs_path = f)
    (hmatch : spec_matches f (normalized_path M ePath)) :
    fcgi_util_fs_add reg s = s :: reg
    ∧ fcgi_util_fs_get_by_id M (dups.foldl fcgi_util_fs_add reg) ePath
        = some (dups.getLast hne) := by
  refine ⟨rfl, ?_⟩
  have hlast : (dups.getLast hne).fs_path = f := hdup _ (List.getLast_mem hne)
  have hsplit : dups.reverse = dups.getLast hne :: dups.dropLast.reverse := by
    conv_lhs => rw [← List.dropLast_append_getLast hne]
    simp
  rw [foldl_fs_add, hsplit, List.cons_append]
  apply fs_get_by_id_cons_of_matches
  rw [hlast]
  exact hmatch

/-- Witness of C3: three records with the path "/app" that differ in their uid
are added to a registry that already holds a fourth; the lookup of "/app/x"
returns the one added last. -/
theorem fs_add_prepends_latest_wins_witness :
    fcgi_util_fs_add [mk_server "/app" 0] (mk_server "/app" 1)
        = [mk_server "/app" 1, mk_server "/app" 0]
    ∧ fcgi_util_fs_get_by_id 4096
        (List.foldl fcgi_util_fs_add [mk_server "/app" 0]
          [mk_server "/app" 1, mk_server "/app" 2, mk_server "/app" 3])
        "/app/x".toList = some (mk_server "/app" 3) :=
  fs_add_prepends_latest_wins 4096 [mk_server "/app" 0]
    [mk_server "/app" 1, mk_server "/app" 2, mk_server "/app" 3] (mk_server "/app" 1)
    "/app".toList "/app/x".toList (by decide) (by decide) (by decide)

/-- C4: a record with `fs_path` "/app" is not returned for "/application" and is
returned for "/app" and "/app/sub" (the working buffer holding these paths).  In
general, on a normalized path `fs_path ++ c :: rest` with `c` not a slash the
match test of the record fails, and no record with that `fs_path` is returned
by the lookup; on the normalized paths `fs_path` and `fs_path ++ '/' :: rest`
the test succeeds and the lookup returns the record when it heads the list. -/
theorem fs_prefix_boundary (M : Nat) (hM : 12 < M) (reg : List fcgi_server) (r : fcgi_server)
    (ePath rest : List Char) (c : Char) (hc : c ≠ '/') :
    (r.fs_path = "/app".toList →
      fcgi_util_fs_get_by_id M [r] "/application".toList = none
      ∧ fcgi_util_fs_get_by_id M [r] "/app".toList = some r
      ∧ fcgi_util_fs_get_by_id M [r] "/app/sub".toList = some r)
    ∧ fs_path_matches r.fs_path (r.fs_path ++ c :: rest) = false
    ∧ fs_path_matches r.fs_path r.fs_path = true
    ∧ fs_path_matches r.fs_path (r.fs_path ++ '/' :: rest) = true
    ∧ (normalized_path M ePath = r.fs_path ++ c :: rest →
        fcgi_util_fs_get_by_id M [r] ePath = none
        ∧ ∀ s, fcgi_util_fs_get_by_id M reg ePath = some s → s.fs_path ≠ r.fs_path)
    ∧ (normalized_path M ePath = r.fs_path ∨ normalized_path M ePath = r.fs_path ++ '/' :: rest →
        fcgi_util_fs_get_by_id M (r :: reg) ePath = some r) := by
  refine ⟨?_, ?_, ?_, ?_, ?_, ?_⟩
  · intro hr
    have h1 : normalized_path M "/application".toList = "/application".toList := by
      rw [normalized_path_of_lt _ _ (by simp; omega)]; decide
    have h2 : normalized_path M "/app".toList = "/app".toList := by
      rw [normalized_path_of_lt _ _ (by simp; omega)]; decide
    have h3 : normalized_path M "/app/sub".toList = "/app/sub".toList := by
      rw [normalized_path_of_lt _ _ (by simp; omega)]; decide
    refine ⟨?_, ?_, ?_⟩
    · rw [fs_get_by_id_cons_of_not_matches]
      · rfl
      · rw [h1, hr]; decide
    · apply fs_get_by_id_cons_of_matches
      rw [h2, hr]; decide
    · apply fs_get_by_id_cons_of_matches
      rw [h3, hr]; decide
  · rw [Bool.eq_false_iff]
    intro h
    exact not_spec_matches_other _ rest c hc ((fs_path_matches_iff _ _).mp h)
  · exact (fs_path_matches_iff _ _).mpr (spec_matches_self _)
  · exact (fs_path_matches_iff _ _).mpr (spec_matches_slash _ _)
  · intro hn
    constructor
    · rw [fs_get_by_id_cons_of_not_matches]
      · rfl
      · rw [hn]; exact not_spec_matches_other _ rest c hc
    · intro s hs hf
      have hm := fs_get_by_id_some_matches M reg ePath s hs
      rw [hn, hf] at hm
      exact not_spec_matches_other _ rest c hc hm
  · intro hn
    apply fs_get_by_id_cons_of_matches
    rcases hn with hn | hn
    · rw [hn]; exact spec_matches_self _
    · rw [hn]; exact spec_matches_slash _ _

/-- Witness of C4 at `FCGI_MAXPATH` = 4096 with the record "/app" and the
requested path "/application", that is "/app" followed by 'l' and "ication". -/
theorem fs_prefix_boundary_witness :
    (fcgi_util_fs_get_by_id 4096 [mk_server "/app" 1] "/application".toList = none
      ∧ fcgi_util_fs_get_by_id 4096 [mk_server "/app" 1] "/app".toList
          = some (mk_server "/app" 1)
      ∧ fcgi_util_fs_get_by_id 4096 [mk_server "/app" 1] "/app/sub".toList
          = some (mk_server "/app" 1))
    ∧ fs_path_matches "/app".toList "/application".toList = false :=
  ⟨(fs_prefix_boundary 4096 (by decide) [] (mk_server "/app" 1) "/application".toList
      "ication".toList 'l' (by decide)).1 rfl,
   (fs_prefix_boundary 4096 (by decide) [] (mk_server "/app" 1) "/application".toList
      "ication".toList 'l' (by decide)).2.1⟩

/-! ## Lemmas on the address builder -/

theorem strchr_of_not_mem (s : List Char) (c : Char) (h : c ∉ s) : strchr s c = none := by
  induction s with
  | nil => rfl
  | cons x xs ih =>
    have hx : x ≠ c := fun e => h (by simp [e])
    have hxs : c ∉ xs := fun e => h (by simp [e])
    simp [strchr, hx, ih hxs]

theorem strchr_append_first (h t : List Char) (c : Char) (hc : c ∉ h) :
    strchr (h ++ c :: t) c = some h.length := by
  induction h with
  | nil => simp [strchr]
  | cons x xs ih =>
    have hx : x ≠ c := fun e => hc (by simp [e])
    have hxs : c ∉ xs := fun e => hc (by simp [e])
    simp [strchr, hx, ih hxs]

/-- The host:port branch of `fcgi_util_socket_make_addr` on an endpoint split at
its first colon. -/
theorem make_addr_host_port (pf : Platform) (nd : Netdb) (p : apr_pool_t) (fr : fcgi_request)
    (h t : List Char) (hne : h ≠ []) (hs : h.head? ≠ some '/') (hc : ':' ∉ h) :
    fcgi_util_socket_make_addr pf nd p fr (some (h ++ ':' :: t))
      = if to_ushort (atoi t) ≤ 0 then
          { err := some msg_invalid_port, fr := fr, server := some (h ++ NUL :: t) }
        else
          { err := (fcgi_util_socket_make_inet_addr pf nd p fr.socket_addr fr.socket_addr_len
              h (to_ushort (atoi t))).err,
            fr :=
              { socket_addr := (fcgi_util_socket_make_inet_addr pf nd p fr.socket_addr
                  fr.socket_addr_len h (to_ushort (atoi t))).socket_addr,
                socket_addr_len := (fcgi_util_socket_make_inet_addr pf nd p fr.socket_addr
                  fr.socket_addr_len h (to_ushort (atoi t))).socket_addr_len },
            server := some (h ++ NUL :: t) } := by
  cases h with
  | nil => exact absurd rfl hne
  | cons a as =>
    have ha : a ≠ '/' := fun e => hs (by simp [e])
    have hk := strchr_append_first (a :: as) t ':' hc
    have hset : (a :: (as ++ ':' :: t)).set (as.length + 1) NUL = a :: (as ++ NUL :: t) := by
      simp [List.set_append]
    have htake : (a :: (as ++ NUL :: t)).take (as.length + 1) = a :: as := by
      simp [List.take_append]
    have hdrop : (a :: (as ++ NUL :: t)).drop (as.length + 1 + 1) = t := by
      simp [List.drop_append]
    simp only [List.cons_append, List.length_cons] at hk ⊢
    simp only [fcgi_util_socket_make_addr, ha, if_false, hk, hset, htake, hdrop, msg_invalid_port]

theorem make_domain_addr_too_long (pf : Platform) (p : apr_pool_t)
    (sa : Option sockaddr_ptr) (len : Int) (socket_path : List Char)
    (h : pf.sizeof_sun_path ≤ strlen socket_path) :
    fcgi_util_socket_make_domain_addr pf p sa len socket_path
      = { err := some (msg_too_long socket_path), socket_addr := sa, socket_addr_len := len } := by
  simp [fcgi_util_socket_make_domain_addr, h, msg_too_long, apr_pstrcat]

theorem make_domain_addr_fits (pf : Platform) (p : apr_pool_t)
    (sa : Option sockaddr_ptr) (len : Int) (socket_path : List Char)
    (h : strlen socket_path < pf.sizeof_sun_path) :
    fcgi_util_socket_make_domain_addr pf p sa len socket_path
      = { err := none,
          socket_addr := some
            { addr := (match sa with
                | none => p.brk
                | some q => q.addr),
              mem := sockaddr.un { sun_family := pf.AF_UNIX, sun_path := socket_path } },
          socket_addr_len := ((pf.offsetof_sun_path + strlen socket_path : Nat) : Int) } := by
  have h2 : ¬ (pf.sizeof_sun_path ≤ strlen socket_path) := by omega
  simp [fcgi_util_socket_make_domain_addr, h2, SUN_LEN]

theorem make_addr_domain (pf : Platform) (nd : Netdb) (p : apr_pool_t) (fr : fcgi_request)
    (server : List Char) (hs : server.head? = some '/') :
    fcgi_util_socket_make_addr pf nd p fr (some server)
      = { err := (fcgi_util_socket_make_domain_addr pf p fr.socket_addr fr.socket_addr_len
            server).err,
          fr :=
            { socket_addr := (fcgi_util_socket_make_domain_addr pf p fr.socket_addr
                fr.socket_addr_len server).socket_addr,
              socket_addr_len := (fcgi_util_socket_make_domain_addr pf p fr.socket_addr
                fr.socket_addr_len server).socket_addr_len },
          server := some server } := by
  cases server with
  | nil => simp at hs
  | cons c cs =>
    have hc : c = '/' := by simpa using hs
    simp [fcgi_util_socket_make_addr, hc]

theorem to_int_zero : to_int 0 = 0 := by decide

theorem strtol_of_no_number (u : List Char)
    (h : ∀ c, u.head? = some c →
      isdigit c = false ∧ isspace c = false ∧ c ≠ '-' ∧ c ≠ '+') :
    strtol u = 0 := by
  cases u with
  | nil => simp [strtol]
  | cons c cs =>
    obtain ⟨h1, h2, h3, h4⟩ := h c rfl
    simp [strtol, List.dropWhile, h1, h2, h3, h4, strtol_digits]

theorem make_inet_addr_err (pf : Platform) (nd : Netdb) (p : apr_pool_t)
    (sa : Option sockaddr_ptr) (len : Int) (host : List Char) (port : Nat) :
    (fcgi_util_socket_make_inet_addr pf nd p sa len host port).err = none
    ∨ (fcgi_util_socket_make_inet_addr pf nd p sa len host port).err = some (msg_resolve host) := by
  unfold fcgi_util_socket_make_inet_addr
  by_cases h : (convert_string_to_in_addr nd host 0).1 = -1
  · right
    simp [h, msg_resolve, apr_pstrcat]
  · left
    simp [h]

theorem msg_resolve_ne_invalid_port (host : List Char) : msg_resolve host ≠ msg_invalid_port := by
  intro h
  have h2 := congrArg List.head? h
  have h3 : (msg_resolve host).head? = some 'f' := rfl
  have h4 : msg_invalid_port.head? = some 'i' := rfl
  rw [h3, h4] at h2
  revert h2
  decide

/-- Every failure of `fcgi_util_socket_make_addr` other than the one reported by
`fcgi_util_socket_make_inet_addr` leaves the destination slot as it was. -/
theorem make_addr_failure_untouched (pf : Platform) (nd : Netdb) (p : apr_pool_t)
    (fr : fcgi_request) (server : Option (List Char))
    (hfail : (fcgi_util_socket_make_addr pf nd p fr server).err ≠ none)
    (hres : ∀ host, (fcgi_util_socket_make_addr pf nd p fr server).err ≠ some (msg_resolve host)) :
    (fcgi_util_socket_make_addr pf nd p fr server).fr = fr := by
  match server with
  | none => rfl
  | some [] => rfl
  | some (c :: cs) =>
    by_cases hc : c = '/'
    · subst hc
      rw [make_addr_domain pf nd p fr ('/' :: cs) rfl] at hfail ⊢
      by_cases hlen : pf.sizeof_sun_path ≤ strlen ('/' :: cs)
      · rw [make_domain_addr_too_long pf p _ _ _ hlen]
      · rw [make_domain_addr_fits pf p _ _ _ (by omega)] at hfail
        exact absurd rfl hfail
    · cases hk : strchr (c :: cs) ':' with
      | none => simp [fcgi_util_socket_make_addr, hc, hk]
      | some k =>
        by_cases hp : to_ushort (atoi (((c :: cs).set k NUL).drop (k + 1))) ≤ 0
        · simp only [fcgi_util_socket_make_addr, hc, if_false, hk, hp, if_true]
        · exfalso
          have hfail2 := hfail
          have hres2 := hres (((c :: cs).set k NUL).take k)
          simp only [fcgi_util_socket_make_addr, hc, if_false, hk, hp] at hfail2 hres2
          rcases make_inet_addr_err pf nd p fr.socket_addr fr.socket_addr_len
            (((c :: cs).set k NUL).take k)
            (to_ushort (atoi (((c :: cs).set k NUL).drop (k + 1)))) with h | h
          · exact hfail2 h
          · exact hres2 h

/-! ## The claims on the address builder -/

/-- C5: for every endpoint string that begins with a slash and is shorter than
`sizeof(sun_path)`, `fcgi_util_socket_make_addr` returns NULL (success), the
address in the slot has the Unix-domain family tag and holds the input string
itself as its path, and the recorded length is the offset of `sun_path` (the
header size) plus the length of the path. -/
theorem make_addr_domain_roundtrip (pf : Platform) (nd : Netdb) (p : apr_pool_t)
    (fr : fcgi_request) (server : List Char) (hs : server.head? = some '/')
    (hlen : strlen server < pf.sizeof_sun_path) :
    (fcgi_util_socket_make_addr pf nd p fr (some server)).err = none
    ∧ (fcgi_util_socket_make_addr pf nd p fr (some server)).fr.socket_addr.map sockaddr_ptr.mem
        = some (sockaddr.un { sun_family := pf.AF_UNIX, sun_path := server })
    ∧ (fcgi_util_socket_make_addr pf nd p fr (some server)).fr.socket_addr_len
        = ((pf.offsetof_sun_path + server.length : Nat) : Int) := by
  rw [make_addr_domain pf nd p fr server hs, make_domain_addr_fits pf p _ _ server hlen]
  simp [strlen]

/-- Witness of C5 on Linux with the endpoint "/tmp/x.sock". -/
theorem make_addr_domain_roundtrip_witness :
    (fcgi_util_socket_make_addr linux no_netdb ⟨100⟩ empty_slot
        (some "/tmp/x.sock".toList)).err = none
    ∧ (fcgi_util_socket_make_addr linux no_netdb ⟨100⟩ empty_slot
        (some "/tmp/x.sock".toList)).fr.socket_addr.map sockaddr_ptr.mem
        = some (sockaddr.un { sun_family := 1, sun_path := "/tmp/x.sock".toList })
    ∧ (fcgi_util_socket_make_addr linux no_netdb ⟨100⟩ empty_slot
        (some "/tmp/x.sock".toList)).fr.socket_addr_len = 13 :=
  make_addr_domain_roundtrip linux no_netdb ⟨100⟩ empty_slot "/tmp/x.sock".toList
    (by decide) (by decide)

/-- C6: for every endpoint string that begins with a slash and whose length is
at least `sizeof(sun_path)`, construction fails with the PathTooLong message,
the message contains the path, and the destination slot (address and
serialized length) is as it was before the call. -/
theorem make_addr_domain_too_long (pf : Platform) (nd : Netdb) (p : apr_pool_t)
    (fr : fcgi_request) (server : List Char) (hs : server.head? = some '/')
    (hlen : pf.sizeof_sun_path ≤ strlen server) :
    (fcgi_util_socket_make_addr pf nd p fr (some server)).err = some (msg_too_long server)
    ∧ server <:+: msg_too_long server
    ∧ (fcgi_util_socket_make_addr pf nd p fr (some server)).fr = fr := by
  rw [make_addr_domain pf nd p fr server hs, make_domain_addr_too_long pf p _ _ server hlen]
  refine ⟨rfl, ?_, rfl⟩
  exact ⟨"path \"".toList, "\" is too long for a Domain socket".toList, rfl⟩

/-- Witness of C6 on a platform whose `sun_path` holds 8 bytes, with a slot that
already holds an Inet address. -/
theorem make_addr_domain_too_long_witness :
    (fcgi_util_socket_make_addr { linux with sizeof_sun_path := 8 } no_netdb ⟨100⟩
        { socket_addr := some ⟨64, sockaddr.inet ⟨2, (0, 80), 5, 0⟩⟩, socket_addr_len := 16 }
        (some "/tmp/x.sock".toList)).err = some (msg_too_long "/tmp/x.sock".toList)
    ∧ "/tmp/x.sock".toList <:+: msg_too_long "/tmp/x.sock".toList
    ∧ (fcgi_util_socket_make_addr { linux with sizeof_sun_path := 8 } no_netdb ⟨100⟩
        { socket_addr := some ⟨64, sockaddr.inet ⟨2, (0, 80), 5, 0⟩⟩, socket_addr_len := 16 }
        (some "/tmp/x.sock".toList)).fr
        = { socket_addr := some ⟨64, sockaddr.inet ⟨2, (0, 80), 5, 0⟩⟩, socket_addr_len := 16 } :=
  make_addr_domain_too_long { linux with sizeof_sun_path := 8 } no_netdb ⟨100⟩
    { socket_addr := some ⟨64, sockaddr.inet ⟨2, (0, 80), 5, 0⟩⟩, socket_addr_len := 16 }
    "/tmp/x.sock".toList (by decide) (by decide)

/-- C7, evaluated on the code: the endpoint "nohost:80" with a resolver that
finds no address and an empty destination slot.  The call fails with the
HostResolutionFailed message, and yet the slot now points at storage allocated
from the pool that holds the Inet family tag and the port, next to the old
serialized length: the slot is not as it was before the call. -/
theorem make_addr_resolve_failure_writes_slot :
    (fcgi_util_socket_make_addr linux no_netdb ⟨100⟩ empty_slot (some "nohost:80".toList)).err
        = some (msg_resolve "nohost".toList)
    ∧ (fcgi_util_socket_make_addr linux no_netdb ⟨100⟩ empty_slot (some "nohost:80".toList)).fr
        = { socket_addr := some ⟨100, sockaddr.inet ⟨2, (0, 80), 0, 0⟩⟩, socket_addr_len := 0 }
    ∧ (fcgi_util_socket_make_addr linux no_netdb ⟨100⟩ empty_slot (some "nohost:80".toList)).fr
        ≠ empty_slot := by
  decide

/-- C8: for every non-empty endpoint string that does not begin with a slash
and contains no colon, construction fails with the MissingPort message, for
every resolver, and the destination slot is as it was. -/
theorem make_addr_missing_port (pf : Platform) (nd : Netdb) (p : apr_pool_t)
    (fr : fcgi_request) (server : List Char) (hne : server ≠ [])
    (hs : server.head? ≠ some '/') (hc : ':' ∉ server) :
    (fcgi_util_socket_make_addr pf nd p fr (some server)).err = some msg_no_port
    ∧ (fcgi_util_socket_make_addr pf nd p fr (some server)).fr = fr := by
  cases server with
  | nil => exact absurd rfl hne
  | cons c cs =>
    have h1 : c ≠ '/' := fun e => hs (by simp [e])
    have h2 := strchr_of_not_mem (c :: cs) ':' hc
    simp [fcgi_util_socket_make_addr, h1, h2, msg_no_port]

/-- Witness of C8 with the endpoint "host" and a resolver that would resolve it. -/
theorem make_addr_missing_port_witness :
    (fcgi_util_socket_make_addr linux one_netdb ⟨100⟩ empty_slot (some "host".toList)).err
        = some msg_no_port
    ∧ (fcgi_util_socket_make_addr linux one_netdb ⟨100⟩ empty_slot (some "host".toList)).fr
        = empty_slot :=
  make_addr_missing_port linux one_netdb ⟨100⟩ empty_slot "host".toList
    (by decide) (by decide) (by decide)

/-- C9: for every endpoint `h ++ ":" ++ t` where `h` is not empty, does not begin
with a slash and has no colon (so that the split is at the first colon) and the
port text `t` parses to zero, construction fails with the InvalidPort message,
for every resolver, with the destination slot as it was: the resolver is not
reached.  The port text parses to zero when it is the numeral "0" and whenever
it does not start with a digit, white space or a sign, as "abc" does. -/
theorem make_addr_zero_port (pf : Platform) (nd : Netdb) (p : apr_pool_t)
    (fr : fcgi_request) (h t : List Char) (hne : h ≠ [])
    (hs : h.head? ≠ some '/') (hc : ':' ∉ h) (hz : atoi t = 0) :
    (fcgi_util_socket_make_addr pf nd p fr (some (h ++ ':' :: t))).err = some msg_invalid_port
    ∧ (fcgi_util_socket_make_addr pf nd p fr (some (h ++ ':' :: t))).fr = fr
    ∧ atoi "0".toList = 0
    ∧ (∀ u : List Char,
        (∀ c, u.head? = some c → isdigit c = false ∧ isspace c = false ∧ c ≠ '-' ∧ c ≠ '+') →
        atoi u = 0) := by
  rw [make_addr_host_port pf nd p fr h t hne hs hc, hz]
  refine ⟨by simp [to_ushort], by simp [to_ushort], by decide, ?_⟩
  intro u hu
  unfold atoi
  rw [strtol_of_no_number u hu]
  exact to_int_zero

/-- Witness of C9 with the endpoints "host:0" and "host:abc" and a resolver that
would resolve the host. -/
theorem make_addr_zero_port_witness :
    (fcgi_util_socket_make_addr linux one_netdb ⟨100⟩ empty_slot (some "host:0".toList)).err
        = some msg_invalid_port
    ∧ (fcgi_util_socket_make_addr linux one_netdb ⟨100⟩ empty_slot (some "host:abc".toList)).err
        = some msg_invalid_port :=
  ⟨(make_addr_zero_port linux one_netdb ⟨100⟩ empty_slot "host".toList "0".toList
      (by decide) (by decide) (by decide) (by decide)).1,
   (make_addr_zero_port linux one_netdb ⟨100⟩ empty_slot "host".toList "abc".toList
      (by decide) (by decide) (by decide) (by decide)).1⟩

/-- C10, evaluated on the code: the port text "-1" parses to -1, which stored in
the 16-bit unsigned `port` is 65535 and passes the test `port <= 0`.  For the
endpoint "host:-1" the result is therefore never the InvalidPort message,
whatever the platform, resolver and slot; with a resolver that knows the host
construction succeeds with the port bytes 255, 255. -/
theorem make_addr_negative_port_accepted (pf : Platform) (nd : Netdb) (p : apr_pool_t)
    (fr : fcgi_request) :
    atoi "-1".toList = -1
    ∧ to_ushort (atoi "-1".toList) = 65535
    ∧ (fcgi_util_socket_make_addr pf nd p fr (some "host:-1".toList)).err ≠ some msg_invalid_port
    ∧ fcgi_util_socket_make_addr linux one_netdb ⟨100⟩ empty_slot (some "host:-1".toList)
        = { err := none,
            fr := { socket_addr := some ⟨100, sockaddr.inet ⟨2, (255, 255), 0x0a000005, 0⟩⟩,
                    socket_addr_len := 16 },
            server := some ("host".toList ++ NUL :: "-1".toList) } := by
  refine ⟨by decide, by decide, ?_, by decide⟩
  have hport : to_ushort (atoi "-1".toList) = 65535 := by decide
  have hsplit : "host:-1".toList = "host".toList ++ ':' :: "-1".toList := by decide
  rw [hsplit, make_addr_host_port pf nd p fr "host".toList "-1".toList
    (by decide) (by decide) (by decide), hport]
  simp only [show ¬ (65535 ≤ 0) by decide, if_false]
  rcases make_inet_addr_err pf nd p fr.socket_addr fr.socket_addr_len "host".toList 65535
    with h | h
  · rw [h]; exact fun e => Option.noConfusion e
  · rw [h]
    intro e
    exact msg_resolve_ne_invalid_port _ (Option.some.inj e)

/-! ## Lemmas on truncation and normalization -/

theorem no2slash_from_length_le (b : Bool) (l : List Char) :
    (no2slash_from b l).length ≤ l.length := by
  induction l generalizing b with
  | nil => simp [no2slash_from]
  | cons c cs ih =>
    by_cases hc : c = '/'
    · cases b
      · have := ih true
        simp [no2slash_from, hc]; omega
      · have := ih true
        simp [no2slash_from, hc]; omega
    · have := ih false
      simp [no2slash_from, hc]; omega

theorem no2slash_from_idem (b : Bool) (l : List Char) :
    no2slash_from b (no2slash_from b l) = no2slash_from b l := by
  induction l generalizing b with
  | nil => simp [no2slash_from]
  | cons c cs ih =>
    by_cases hc : c = '/'
    · cases b
      · simp [no2slash_from, hc, ih true]
      · simp [no2slash_from, hc, ih true]
    · simp [no2slash_from, hc, ih false]

theorem ap_no2slash_idem (l : List Char) : ap_no2slash (ap_no2slash l) = ap_no2slash l :=
  no2slash_from_idem false l

theorem ap_no2slash_length_le (l : List Char) : (ap_no2slash l).length ≤ l.length :=
  no2slash_from_length_le false l

/-- The output of the `ap_no2slash` loop never holds two slashes in a row, and
does not start with a slash when the loop starts inside a run of slashes. -/
theorem no2slash_from_no_double (b : Bool) (l : List Char) :
    (∀ g r, no2slash_from b l ≠ g ++ '/' :: '/' :: r)
    ∧ (b = true → ∀ r, no2slash_from b l ≠ '/' :: r) := by
  induction l generalizing b with
  | nil =>
    constructor
    · intro g r h
      cases g <;> simp [no2slash_from] at h
    · intro _ r h
      simp [no2slash_from] at h
  | cons c cs ih =>
    by_cases hc : c = '/'
    · cases b
      · constructor
        · intro g r h
          have h2 : '/' :: no2slash_from true cs = g ++ '/' :: '/' :: r := by
            simpa [no2slash_from, hc] using h
          cases g with
          | nil =>
            simp only [List.nil_append, List.cons.injEq, true_and] at h2
            exact (ih true).2 rfl r h2
          | cons x g =>
            simp only [List.cons_append, List.cons.injEq] at h2
            exact (ih true).1 g r h2.2
        · intro hb
          cases hb
      · simpa [no2slash_from, hc] using ih true
    · constructor
      · intro g r h
        have h2 : c :: no2slash_from false cs = g ++ '/' :: '/' :: r := by
          simpa [no2slash_from, hc] using h
        cases g with
        | nil =>
          simp only [List.nil_append, List.cons.injEq] at h2
          exact hc h2.1
        | cons x g =>
          simp only [List.cons_append, List.cons.injEq] at h2
          exact (ih false).1 g r h2.2
      · intro _ r h
        simp [no2slash_from, hc] at h

theorem normalized_path_no_double (M : Nat) (ePath g r : List Char) :
    normalized_path M ePath ≠ g ++ '/' :: '/' :: r :=
  (no2slash_from_no_double false _).1 g r

theorem fs_get_by_id_eq_fs_find (M : Nat) (reg : List fcgi_server) (ePath : List Char) :
    fcgi_util_fs_get_by_id M reg ePath = fs_find (normalized_path M ePath) reg := rfl

theorem normalized_path_take (M : Nat) (ePath : List Char) :
    normalized_path M (ePath.take (M - 1)) = normalized_path M ePath := by
  simp [normalized_path, apr_cpystrn, List.take_take]

theorem fs_find_mem (path : List Char) (reg : List fcgi_server) (s : fcgi_server)
    (h : fs_find path reg = some s) : s ∈ reg := by
  rw [fs_find_eq_find] at h
  exact List.mem_of_find?_eq_some h

/-- The scan looks at the `fs_path` of the records only: on two lists with the
same paths in the same order it stops at the same position. -/
theorem fs_find_same_position (path : List Char) (reg1 reg2 : List fcgi_server)
    (h : reg1.map fcgi_server.fs_path = reg2.map fcgi_server.fs_path) :
    (fs_find path reg1 = none ∧ fs_find path reg2 = none)
    ∨ ∃ (i : Nat) (s1 s2 : fcgi_server), reg1[i]? = some s1 ∧ reg2[i]? = some s2
        ∧ fs_find path reg1 = some s1 ∧ fs_find path reg2 = some s2 := by
  induction reg1 generalizing reg2 with
  | nil =>
    cases reg2 with
    | nil => left; exact ⟨rfl, rfl⟩
    | cons b bs => simp at h
  | cons a as ih =>
    cases reg2 with
    | nil => simp at h
    | cons b bs =>
      simp only [List.map_cons, List.cons.injEq] at h
      obtain ⟨hab, hrest⟩ := h
      by_cases hm : fs_path_matches a.fs_path path = true
      · right
        refine ⟨0, a, b, by simp, by simp, ?_, ?_⟩
        · simp [fs_find, hm]
        · simp [fs_find, ← hab, hm]
      · rcases ih bs hrest with ⟨h1, h2⟩ | ⟨i, s1, s2, h1, h2, h3, h4⟩
        · left
          constructor
          · simp [fs_find, hm, h1]
          · simp [fs_find, ← hab, hm, h2]
        · right
          refine ⟨i + 1, s1, s2, by simpa using h1, by simpa using h2, ?_, ?_⟩
          · simp [fs_find, hm, h3]
          · simp [fs_find, ← hab, hm, h4]

theorem no2slash_from_true_slashes (n : Nat) (l : List Char) :
    no2slash_from true (List.replicate n '/' ++ l) = no2slash_from true l := by
  induction n with
  | zero => rfl
  | succ n ih => simpa [List.replicate_succ, no2slash_from] using ih

theorem ap_no2slash_slashes (n : Nat) (l : List Char) :
    ap_no2slash (List.replicate (n + 1) '/' ++ l) = '/' :: no2slash_from true l := by
  simp [ap_no2slash, List.replicate_succ, no2slash_from, no2slash_from_true_slashes]

theorem ap_no2slash_only_slashes (n : Nat) :
    ap_no2slash (List.replicate (n + 1) '/') = ['/'] := by
  have h := ap_no2slash_slashes n []
  rw [List.append_nil] at h
  rw [h]
  rfl

/-! ## The claims on truncation, normalization and the fields consulted -/

/-- C16: for every registry and every requested path `p`, the lookup of `p` is
the lookup of the first `FCGI_MAXPATH - 1` characters of `p`; two paths that
agree on these characters have the same result, so that the characters beyond
the bound have no influence; and the result is always NULL or a record of the
registry, never an error. -/
theorem fs_get_by_id_truncates (M : Nat) (reg : List fcgi_server) (p q : List Char)
    (h : p.take (M - 1) = q.take (M - 1)) :
    fcgi_util_fs_get_by_id M reg p = fcgi_util_fs_get_by_id M reg (p.take (M - 1))
    ∧ fcgi_util_fs_get_by_id M reg p = fcgi_util_fs_get_by_id M reg q
    ∧ (fcgi_util_fs_get_by_id M reg p = none
        ∨ ∃ s, s ∈ reg ∧ fcgi_util_fs_get_by_id M reg p = some s) := by
  refine ⟨?_, ?_, ?_⟩
  · rw [fs_get_by_id_eq_fs_find, fs_get_by_id_eq_fs_find, normalized_path_take]
  · rw [fs_get_by_id_eq_fs_find, fs_get_by_id_eq_fs_find, ← normalized_path_take M p,
      ← normalized_path_take M q, h]
  · cases hres : fcgi_util_fs_get_by_id M reg p with
    | none => left; rfl
    | some s =>
      right
      exact ⟨s, fs_find_mem _ _ _ hres, rfl⟩

/-- Witness of C16 with a working buffer of 6 bytes: "/app/xyz" and "/app/abc"
agree on their first 5 characters and both find the record "/app". -/
theorem fs_get_by_id_truncates_witness :
    fcgi_util_fs_get_by_id 6 [mk_server "/app" 1] "/app/xyz".toList
        = fcgi_util_fs_get_by_id 6 [mk_server "/app" 1] ("/app/xyz".toList.take (6 - 1))
    ∧ fcgi_util_fs_get_by_id 6 [mk_server "/app" 1] "/app/xyz".toList
        = fcgi_util_fs_get_by_id 6 [mk_server "/app" 1] "/app/abc".toList
    ∧ (fcgi_util_fs_get_by_id 6 [mk_server "/app" 1] "/app/xyz".toList = none
        ∨ ∃ s, s ∈ [mk_server "/app" 1]
            ∧ fcgi_util_fs_get_by_id 6 [mk_server "/app" 1] "/app/xyz".toList = some s) :=
  fs_get_by_id_truncates 6 [mk_server "/app" 1] "/app/xyz".toList "/app/abc".toList
    (by decide)

/-- C18 as stated fails.  With a working buffer of 6 bytes the path "///a/b" has
the normalized form "/a/b", which fits, and yet the lookup of "///a/b" finds
nothing where the lookup of "/a/b" finds the record "/a/b": the path is cut to
"///a/" before the slashes are collapsed.  The same with a buffer of 4096
bytes and the path made of 4095 slashes and "a", whose normalized form is
"/a". -/
theorem fs_get_by_id_normalized_fits_counterexample :
    ((ap_no2slash "///a/b".toList).length ≤ 6 - 1
      ∧ fcgi_util_fs_get_by_id 6 [mk_server "/a/b" 1] "///a/b".toList = none
      ∧ fcgi_util_fs_get_by_id 6 [mk_server "/a/b" 1] (ap_no2slash "///a/b".toList)
          = some (mk_server "/a/b" 1))
    ∧ ((ap_no2slash (List.replicate 4095 '/' ++ ['a'])).length ≤ 4096 - 1
      ∧ fcgi_util_fs_get_by_id 4096 [mk_server "/a" 1] (List.replicate 4095 '/' ++ ['a']) = none
      ∧ fcgi_util_fs_get_by_id 4096 [mk_server "/a" 1]
          (ap_no2slash (List.replicate 4095 '/' ++ ['a'])) = some (mk_server "/a" 1))
    ∧ ¬ (∀ (M : Nat) (reg : List fcgi_server) (p : List Char),
          (ap_no2slash p).length ≤ M - 1 →
          fcgi_util_fs_get_by_id M reg p = fcgi_util_fs_get_by_id M reg (ap_no2slash p)) := by
  refine ⟨⟨by decide, by decide, by decide⟩, ⟨?_, ?_, ?_⟩, ?_⟩
  · rw [ap_no2slash_slashes 4094 ['a']]
    decide
  · have hcut : apr_cpystrn (List.replicate 4095 '/' ++ ['a']) 4096 = List.replicate 4095 '/' := by
      unfold apr_cpystrn
      exact List.take_left' (List.length_replicate 4095 '/')
    have hnorm : normalized_path 4096 (List.replicate 4095 '/' ++ ['a']) = ['/'] := by
      unfold normalized_path
      rw [hcut]
      exact ap_no2slash_only_slashes 4094
    rw [fs_get_by_id_eq_fs_find, hnorm]
    decide
  · rw [ap_no2slash_slashes 4094 ['a']]
    decide
  · intro hall
    have h := hall 6 [mk_server "/a/b" 1] "///a/b".toList (by decide)
    revert h
    decide

/-- C18, amended: for every registry and every requested path `p` that itself
fits in the working buffer (its length is below `FCGI_MAXPATH`), the lookup of
`p` is the lookup of `p` with its runs of slashes collapsed. -/
theorem fs_get_by_id_no2slash_invariant (M : Nat) (reg : List fcgi_server) (p : List Char)
    (h : p.length < M) :
    fcgi_util_fs_get_by_id M reg p = fcgi_util_fs_get_by_id M reg (ap_no2slash p) := by
  have h2 : (ap_no2slash p).length < M := lt_of_le_of_lt (ap_no2slash_length_le p) h
  rw [fs_get_by_id_eq_fs_find, fs_get_by_id_eq_fs_find, normalized_path_of_lt M p h,
    normalized_path_of_lt M _ h2, ap_no2slash_idem]

/-- Witness of C18 amended: "/app//v2///x" in a buffer of 4096 bytes. -/
theorem fs_get_by_id_no2slash_invariant_witness :
    fcgi_util_fs_get_by_id 4096 [mk_server "/app/v2" 2, mk_server "/app" 1] "/app//v2///x".toList
      = fcgi_util_fs_get_by_id 4096 [mk_server "/app/v2" 2, mk_server "/app" 1]
          (ap_no2slash "/app//v2///x".toList) :=
  fs_get_by_id_no2slash_invariant 4096 [mk_server "/app/v2" 2, mk_server "/app" 1]
    "/app//v2///x".toList (by decide)

/-- C19: for every `fs_path` that is not empty and ends with a slash, and every
requested path, the match test of the lookup succeeds if and only if the
normalized requested path is `fs_path` itself; so "/app/" does not match
"/app/sub" and "/" does not match "/x" (the buffer holding these paths). -/
theorem fs_trailing_slash_exact (M : Nat) (f ePath : List Char) (hM : 8 < M)
    (hend : f.getLast? = some '/') :
    (fs_path_matches f (normalized_path M ePath) = true ↔ normalized_path M ePath = f)
    ∧ fs_path_matches "/app/".toList (normalized_path M "/app/sub".toList) = false
    ∧ fs_path_matches "/".toList (normalized_path M "/x".toList) = false
    ∧ fs_path_matches "/app/".toList (normalized_path M "/app/".toList) = true := by
  refine ⟨?_, ?_, ?_, ?_⟩
  · rw [fs_path_matches_iff]
    constructor
    · rintro ⟨⟨rest, hrest⟩, hnext⟩
      obtain ⟨g, hg⟩ : ∃ g, f = g ++ ['/'] := by
        rcases List.eq_nil_or_concat f with hnil | ⟨g, c, hgc⟩
        · rw [hnil] at hend; simp at hend
        · rw [hgc] at hend
          simp at hend
          exact ⟨g, by rw [hgc, hend]; simp⟩
      cases rest with
      | nil => simpa using hrest.symm
      | cons c rest =>
        exfalso
        rw [← hrest] at hnext
        simp at hnext
        subst hnext
        apply normalized_path_no_double M ePath g rest
        rw [← hrest, hg]
        simp
    · intro h
      rw [h]
      exact spec_matches_self f
  · rw [normalized_path_of_lt _ _ (by simp; omega)]; decide
  · rw [normalized_path_of_lt _ _ (by simp; omega)]; decide
  · rw [normalized_path_of_lt _ _ (by simp; omega)]; decide

/-- Witness of C19 with the record path "/app/" and the request "/app//sub". -/
theorem fs_trailing_slash_exact_witness :
    (fs_path_matches "/app/".toList (normalized_path 4096 "/app//sub".toList) = true
      ↔ normalized_path 4096 "/app//sub".toList = "/app/".toList)
    ∧ fs_path_matches "/app/".toList (normalized_path 4096 "/app/sub".toList) = false :=
  ⟨(fs_trailing_slash_exact 4096 "/app/".toList "/app//sub".toList (by decide) (by decide)).1,
   (fs_trailing_slash_exact 4096 "/app/".toList "/app//sub".toList (by decide) (by decide)).2.1⟩

/-- C20: for two registries whose records have, position by position, the same
`fs_path` (and may differ in uid, gid and socket address), and for every
requested path, `fcgi_util_fs_get_by_id` returns NULL on both or returns on
both the record at one and the same position. -/
theorem fs_get_by_id_depends_on_paths_only (M : Nat) (reg1 reg2 : List fcgi_server)
    (ePath : List Char)
    (h : reg1.map fcgi_server.fs_path = reg2.map fcgi_server.fs_path) :
    (fcgi_util_fs_get_by_id M reg1 ePath = none ∧ fcgi_util_fs_get_by_id M reg2 ePath = none)
    ∨ ∃ (i : Nat) (s1 s2 : fcgi_server), reg1[i]? = some s1 ∧ reg2[i]? = some s2
        ∧ fcgi_util_fs_get_by_id M reg1 ePath = some s1
        ∧ fcgi_util_fs_get_by_id M reg2 ePath = some s2 := by
  rw [fs_get_by_id_eq_fs_find, fs_get_by_id_eq_fs_find]
  exact fs_find_same_position _ reg1 reg2 h

/-- Witness of C20: two registries with the paths "/app/v2", "/app" whose
records differ in uid, looked up with "/app/x". -/
theorem fs_get_by_id_depends_on_paths_only_witness :
    (fcgi_util_fs_get_by_id 4096 [mk_server "/app/v2" 1, mk_server "/app" 2] "/app/x".toList = none
      ∧ fcgi_util_fs_get_by_id 4096 [mk_server "/app/v2" 3, mk_server "/app" 4] "/app/x".toList
          = none)
    ∨ ∃ (i : Nat) (s1 s2 : fcgi_server), [mk_server "/app/v2" 1, mk_server "/app" 2][i]? = some s1
        ∧ [mk_server "/app/v2" 3, mk_server "/app" 4][i]? = some s2
        ∧ fcgi_util_fs_get_by_id 4096 [mk_server "/app/v2" 1, mk_server "/app" 2] "/app/x".toList
            = some s1
        ∧ fcgi_util_fs_get_by_id 4096 [mk_server "/app/v2" 3, mk_server "/app" 4] "/app/x".toList
            = some s2 :=
  fs_get_by_id_depends_on_paths_only 4096 [mk_server "/app/v2" 1, mk_server "/app" 2]
    [mk_server "/app/v2" 3, mk_server "/app" 4] "/app/x".toList (by decide)

/-! ## Lemmas on the port text and on resolution -/

theorem decimal_value_nil : decimal_value [] = 0 := by
  simp [decimal_value]

theorem decimal_value_cons (d : Char) (ds : List Char) :
    decimal_value (d :: ds) = (d.toNat - 48) * 10 ^ ds.length + decimal_value ds := by
  simp [decimal_value, Nat.ofDigits_append, Nat.ofDigits_singleton]
  ring

theorem strtol_digits_append (acc : Nat) (ds rest : List Char)
    (hds : ∀ c ∈ ds, isdigit c = true)
    (hrest : ∀ c, rest.head? = some c → isdigit c = false) :
    strtol_digits acc (ds ++ rest) = acc * 10 ^ ds.length + decimal_value ds := by
  induction ds generalizing acc with
  | nil =>
    cases rest with
    | nil => simp [strtol_digits, decimal_value_nil]
    | cons c cs => simp [strtol_digits, decimal_value_nil, hrest c rfl]
  | cons d ds ih =>
    have hd : isdigit d = true := hds d (by simp)
    have hds2 : ∀ c ∈ ds, isdigit c = true := fun c hc => hds c (by simp [hc])
    have hstep : strtol_digits acc (d :: ds ++ rest)
        = strtol_digits (acc * 10 + (d.toNat - 48)) (ds ++ rest) := by
      simp [strtol_digits, hd]
    rw [hstep, ih _ hds2, decimal_value_cons, List.length_cons]
    ring

theorem isdigit_not_space_sign (c : Char) (h : isdigit c = true) :
    isspace c = false ∧ c ≠ '-' ∧ c ≠ '+' := by
  simp only [isdigit, Bool.and_eq_true, decide_eq_true_eq] at h
  refine ⟨?_, ?_, ?_⟩
  · simp only [isspace, Bool.or_eq_false_iff, decide_eq_false_iff_not, Bool.and_eq_false_iff]
    omega
  · intro e
    rw [e] at h
    revert h
    decide
  · intro e
    rw [e] at h
    revert h
    decide

theorem to_int_of_small (n : Nat) (h : n < 2 ^ 31) : to_int (n : Int) = n := by
  unfold to_int
  norm_num at h ⊢
  omega

/-- The function `atoi` on a text that begins with a decimal numeral. -/
theorem atoi_numeral (ds rest : List Char)
    (hds : ∀ c ∈ ds, isdigit c = true)
    (hrest : ∀ c, rest.head? = some c → isdigit c = false)
    (hne : ds ≠ []) (hn : decimal_value ds < 2 ^ 31) :
    atoi (ds ++ rest) = (decimal_value ds : Int) := by
  cases ds with
  | nil => exact absurd rfl hne
  | cons d ds =>
    have hd : isdigit d = true := hds d (by simp)
    obtain ⟨h1, h2, h3⟩ := isdigit_not_space_sign d hd
    have hval := strtol_digits_append 0 (d :: ds) rest hds hrest
    simp only [List.cons_append, Nat.zero_mul, Nat.zero_add] at hval
    have hstr : strtol (d :: (ds ++ rest)) = (decimal_value (d :: ds) : Int) := by
      simp only [strtol, List.dropWhile, h1, h2, h3, if_false, hval]
      norm_num at hn ⊢
      omega
    unfold atoi
    rw [List.cons_append, hstr]
    exact to_int_of_small _ hn

theorem to_ushort_of_small (n : Nat) (h : n ≤ 65535) : to_ushort (n : Int) = n := by
  unfold to_ushort
  omega

theorem htons_of_small (n : Nat) (h : n ≤ 65535) : htons n = (n / 256, n % 256) := by
  unfold htons
  have : n / 256 % 256 = n / 256 := Nat.mod_eq_of_lt (by omega)
  rw [this]

/-- Success of `convert_string_to_in_addr`: the literal address, or the single
address of the entry that `gethostbyname` returns. -/
theorem convert_of_one_address (nd : Netdb) (host : List Char) (a0 a : Nat)
    (h : nd.inet_aton host = some a
      ∨ (nd.inet_aton host = none ∧ nd.gethostbyname host = some ⟨a, []⟩)) :
    convert_string_to_in_addr nd host a0 = (0, a) := by
  rcases h with h | ⟨h1, h2⟩
  · simp [convert_string_to_in_addr, h]
  · simp [convert_string_to_in_addr, h1, h2]

theorem make_inet_addr_of_status (pf : Platform) (nd : Netdb) (p : apr_pool_t)
    (sa : Option sockaddr_ptr) (len : Int) (host : List Char) (port : Nat) :
    fcgi_util_socket_make_inet_addr pf nd p sa len host port
      = if (convert_string_to_in_addr nd host 0).1 = -1 then
          { err := some (msg_resolve host),
            socket_addr := some
              { addr := (match sa with
                  | none => p.brk
                  | some q => q.addr),
                mem := sockaddr.inet
                  { sin_family := pf.AF_INET, sin_port := htons port,
                    sin_addr := (convert_string_to_in_addr nd host 0).2, sin_zero := 0 } },
            socket_addr_len := len }
        else
          { err := none,
            socket_addr := some
              { addr := (match sa with
                  | none => p.brk
                  | some q => q.addr),
                mem := sockaddr.inet
                  { sin_family := pf.AF_INET, sin_port := htons port,
                    sin_addr := (convert_string_to_in_addr nd host 0).2, sin_zero := 0 } },
            socket_addr_len := (pf.sizeof_sockaddr_in : Int) } := by
  simp [fcgi_util_socket_make_inet_addr, msg_resolve, apr_pstrcat]

/-- The status of `convert_string_to_in_addr` is 0 or -1. -/
theorem convert_status (nd : Netdb) (host : List Char) (a0 : Nat) :
    (convert_string_to_in_addr nd host a0).1 = 0 ∨ (convert_string_to_in_addr nd host a0).1 = -1 := by
  unfold convert_string_to_in_addr
  cases nd.inet_aton host with
  | some a => left; rfl
  | none =>
    cases nd.gethostbyname host with
    | none => right; rfl
    | some hp =>
      by_cases hc : 1 + hp.h_addr_more.length = 1
      · left; simp [hc]
      · right; simp [hc]

/-- A successful call leaves in the slot the storage it was given (or new
storage for a NULL slot) with contents and length that depend on the endpoint,
the platform and the resolver only. -/
theorem make_addr_success_shape (pf : Platform) (nd : Netdb) (p : apr_pool_t)
    (fr : fcgi_request) (server : Option (List Char))
    (hsucc : (fcgi_util_socket_make_addr pf nd p fr server).err = none) :
    ∃ (mem : sockaddr) (len : Int),
      (∀ fr2 : fcgi_request,
        (fcgi_util_socket_make_addr pf nd p fr2 server).err = none
        ∧ (fcgi_util_socket_make_addr pf nd p fr2 server).fr
          = { socket_addr := some
                { addr := (match fr2.socket_addr with
                    | none => p.brk
                    | some q => q.addr),
                  mem := mem },
              socket_addr_len := len })
      ∧ slot_len_ok pf { socket_addr := some ⟨0, mem⟩, socket_addr_len := len } := by
  match server with
  | none => simp [fcgi_util_socket_make_addr] at hsucc
  | some [] => simp [fcgi_util_socket_make_addr] at hsucc
  | some (c :: cs) =>
    by_cases hc : c = '/'
    · subst hc
      by_cases hlen : pf.sizeof_sun_path ≤ strlen ('/' :: cs)
      · rw [make_addr_domain pf nd p fr ('/' :: cs) rfl,
          make_domain_addr_too_long pf p _ _ _ hlen] at hsucc
        simp at hsucc
      · refine ⟨sockaddr.un { sun_family := pf.AF_UNIX, sun_path := '/' :: cs },
          ((pf.offsetof_sun_path + strlen ('/' :: cs) : Nat) : Int), ?_, ?_⟩
        · intro fr2
          rw [make_addr_domain pf nd p fr2 ('/' :: cs) rfl,
            make_domain_addr_fits pf p _ _ _ (by omega)]
          exact ⟨rfl, rfl⟩
        · simp [slot_len_ok, strlen]
    · cases hk : strchr (c :: cs) ':' with
      | none => simp [fcgi_util_socket_make_addr, hc, hk] at hsucc
      | some k =>
        by_cases hp : to_ushort (atoi (((c :: cs).set k NUL).drop (k + 1))) ≤ 0
        · simp [fcgi_util_socket_make_addr, hc, hk, hp] at hsucc
        · simp only [fcgi_util_socket_make_addr, hc, if_false, hk, hp] at hsucc ⊢
          rw [make_inet_addr_of_status] at hsucc
          by_cases hst : (convert_string_to_in_addr nd (((c :: cs).set k NUL).take k) 0).1 = -1
          · simp [hst] at hsucc
          · refine ⟨sockaddr.inet
              { sin_family := pf.AF_INET,
                sin_port := htons (to_ushort (atoi (((c :: cs).set k NUL).drop (k + 1)))),
                sin_addr := (convert_string_to_in_addr nd (((c :: cs).set k NUL).take k) 0).2,
                sin_zero := 0 }, (pf.sizeof_sockaddr_in : Int), ?_, ?_⟩
            · intro fr2
              rw [make_inet_addr_of_status]
              simp [hst]
            · simp [slot_len_ok]

/-- The invariant of the slot survives every call that succeeds and every
failure other than the one reported by `fcgi_util_socket_make_inet_addr`. -/
theorem make_addr_keeps_len_ok (pf : Platform) (nd : Netdb) (p : apr_pool_t)
    (fr : fcgi_request) (server : Option (List Char)) (hok : slot_len_ok pf fr)
    (hres : ∀ host, (fcgi_util_socket_make_addr pf nd p fr server).err ≠ some (msg_resolve host)) :
    slot_len_ok pf (fcgi_util_socket_make_addr pf nd p fr server).fr := by
  by_cases hsucc : (fcgi_util_socket_make_addr pf nd p fr server).err = none
  · obtain ⟨mem, len, hshape, hlen⟩ := make_addr_success_shape pf nd p fr server hsucc
    rw [(hshape fr).2]
    cases mem with
    | un a => simpa [slot_len_ok] using hlen
    | inet a => simpa [slot_len_ok] using hlen
  · rw [make_addr_failure_untouched pf nd p fr server hsucc hres]
    exact hok

/-- The buffer `server` after a call on an endpoint split at its first colon:
the colon has been overwritten by the terminator. -/
theorem make_addr_server_buffer (pf : Platform) (nd : Netdb) (p : apr_pool_t)
    (fr : fcgi_request) (h t : List Char) (hne : h ≠ []) (hs : h.head? ≠ some '/')
    (hc : ':' ∉ h) :
    (fcgi_util_socket_make_addr pf nd p fr (some (h ++ ':' :: t))).server
      = some (h ++ NUL :: t) := by
  rw [make_addr_host_port pf nd p fr h t hne hs hc]
  split <;> rfl

/-! ## The claims on Inet construction and on the effects of the builder -/

/-- C11: for every endpoint `h ++ ":" ++ t` where `h` is not empty, does not
begin with a slash and has no colon, `t` is a decimal numeral `ds` of a value
from 1 to 65535 followed by any text `rest` that does not go on with a digit
(further colons included), and `h` has exactly one address `a` (as a literal,
or as the only address of its `gethostbyname` entry): construction succeeds,
the resolver is asked about `h` itself, and the slot holds an Inet address with
the Inet family tag, the port high byte first, the address `a`, zero padding,
and the length `sizeof(struct sockaddr_in)`. -/
theorem make_addr_inet_success (pf : Platform) (nd : Netdb) (p : apr_pool_t)
    (fr : fcgi_request) (h ds rest : List Char) (a : Nat)
    (hne : h ≠ []) (hs : h.head? ≠ some '/') (hc : ':' ∉ h)
    (hds : ∀ c ∈ ds, isdigit c = true)
    (hrest : ∀ c, rest.head? = some c → isdigit c = false)
    (hn1 : 1 ≤ decimal_value ds) (hn2 : decimal_value ds ≤ 65535)
    (hres : nd.inet_aton h = some a
      ∨ (nd.inet_aton h = none ∧ nd.gethostbyname h = some ⟨a, []⟩)) :
    fcgi_util_socket_make_addr pf nd p fr (some (h ++ ':' :: (ds ++ rest)))
      = { err := none,
          fr :=
            { socket_addr := some
                { addr := (match fr.socket_addr with
                    | none => p.brk
                    | some q => q.addr),
                  mem := sockaddr.inet
                    { sin_family := pf.AF_INET,
                      sin_port := (decimal_value ds / 256, decimal_value ds % 256),
                      sin_addr := a, sin_zero := 0 } },
              socket_addr_len := (pf.sizeof_sockaddr_in : Int) },
          server := some (h ++ NUL :: (ds ++ rest)) } := by
  have hds_ne : ds ≠ [] := by
    intro e
    rw [e, decimal_value_nil] at hn1
    omega
  have hatoi := atoi_numeral ds rest hds hrest hds_ne (by norm_num; omega)
  have hport : to_ushort (atoi (ds ++ rest)) = decimal_value ds := by
    rw [hatoi]; exact to_ushort_of_small _ hn2
  have hpos : ¬ (decimal_value ds ≤ 0) := by omega
  rw [make_addr_host_port pf nd p fr h (ds ++ rest) hne hs hc, hport, if_neg hpos,
    make_inet_addr_of_status, convert_of_one_address nd h 0 a hres, htons_of_small _ hn2]
  simp

/-- Witness of C11: "host:8080:x" with a resolver that gives "host" the single
address 10.0.0.5; the port 8080 is stored as the bytes 31, 144. -/
theorem make_addr_inet_success_witness :
    fcgi_util_socket_make_addr linux one_netdb ⟨100⟩ empty_slot
        (some ("host".toList ++ ':' :: ("8080".toList ++ ":x".toList)))
      = { err := none,
          fr :=
            { socket_addr := some
                { addr := 100,
                  mem := sockaddr.inet
                    { sin_family := 2, sin_port := (31, 144), sin_addr := 0x0a000005,
                      sin_zero := 0 } },
              socket_addr_len := 16 },
          server := some ("host".toList ++ NUL :: ("8080".toList ++ ":x".toList)) } :=
  make_addr_inet_success linux one_netdb ⟨100⟩ empty_slot "host".toList "8080".toList
    ":x".toList 0x0a000005 (by decide) (by decide) (by decide) (by decide) (by decide)
    (by decide) (by decide) (Or.inr ⟨rfl, rfl⟩)

/-- C13: for every host string that `inet_aton` does not accept as a literal
address, `convert_string_to_in_addr` succeeds exactly when `gethostbyname`
returns an entry with one address, and then stores that address; a NULL result
and an entry with two or more addresses make it return -1; and whenever it
returns -1 `fcgi_util_socket_make_inet_addr`, and with it
`fcgi_util_socket_make_addr` on an endpoint with this host and a valid port,
fails with the HostResolutionFailed message, which contains the host text. -/
theorem convert_not_literal (nd : Netdb) (host : List Char) (a0 : Nat)
    (hlit : nd.inet_aton host = none) :
    ((convert_string_to_in_addr nd host a0).1 = 0
        ↔ ∃ a, nd.gethostbyname host = some ⟨a, []⟩)
    ∧ (∀ a, nd.gethostbyname host = some ⟨a, []⟩ →
        convert_string_to_in_addr nd host a0 = (0, a))
    ∧ (nd.gethostbyname host = none → (convert_string_to_in_addr nd host a0).1 = -1)
    ∧ (∀ a b more, nd.gethostbyname host = some ⟨a, b :: more⟩ →
        (convert_string_to_in_addr nd host a0).1 = -1)
    ∧ (∀ (pf : Platform) (p : apr_pool_t) (sa : Option sockaddr_ptr) (len : Int) (port : Nat),
        (¬ ∃ a, nd.gethostbyname host = some ⟨a, []⟩) →
        (fcgi_util_socket_make_inet_addr pf nd p sa len host port).err
          = some (msg_resolve host))
    ∧ (∀ (pf : Platform) (p : apr_pool_t) (fr : fcgi_request) (t : List Char),
        host ≠ [] → host.head? ≠ some '/' → ':' ∉ host → 0 < to_ushort (atoi t) →
        (¬ ∃ a, nd.gethostbyname host = some ⟨a, []⟩) →
        (fcgi_util_socket_make_addr pf nd p fr (some (host ++ ':' :: t))).err
          = some (msg_resolve host))
    ∧ host <:+: msg_resolve host := by
  have hiff : ∀ a1, (convert_string_to_in_addr nd host a1).1 = 0
      ↔ ∃ a, nd.gethostbyname host = some ⟨a, []⟩ := by
    intro a1
    unfold convert_string_to_in_addr
    rw [hlit]
    cases hg : nd.gethostbyname host with
    | none => simp
    | some hp =>
      obtain ⟨a, more⟩ := hp
      cases more with
      | nil => simp
      | cons b more => simp
  have hfail : ∀ a1, (¬ ∃ a, nd.gethostbyname host = some ⟨a, []⟩) →
      (convert_string_to_in_addr nd host a1).1 = -1 := by
    intro a1 hno
    rcases convert_status nd host a1 with h0 | h1
    · exact absurd ((hiff a1).mp h0) hno
    · exact h1
  refine ⟨hiff a0, ?_, ?_, ?_, ?_, ?_, ?_⟩
  · intro a ha
    exact convert_of_one_address nd host a0 a (Or.inr ⟨hlit, ha⟩)
  · intro hg
    apply hfail
    rw [hg]; simp
  · intro a b more hg
    apply hfail
    rw [hg]; simp
  · intro pf p sa len port hno
    rw [make_inet_addr_of_status, if_pos (hfail 0 hno)]
  · intro pf p fr t hne hs hc hport hno
    rw [make_addr_host_port pf nd p fr host t hne hs hc, if_neg (by omega),
      make_inet_addr_of_status, if_pos (hfail 0 hno)]
  · exact ⟨"failed to resolve \"".toList, "\" to exactly one IP address".toList, rfl⟩

/-- Witness of C13: the host "host" with a resolver that gives it one address,
and with a resolver that gives it two. -/
theorem convert_not_literal_witness :
    ((convert_string_to_in_addr one_netdb "host".toList 0).1 = 0
        ↔ ∃ a, one_netdb.gethostbyname "host".toList = some ⟨a, []⟩)
    ∧ convert_string_to_in_addr one_netdb "host".toList 0 = (0, 0x0a000005)
    ∧ (convert_string_to_in_addr two_netdb "host".toList 0).1 = -1 :=
  ⟨(convert_not_literal one_netdb "host".toList 0 rfl).1,
   (convert_not_literal one_netdb "host".toList 0 rfl).2.1 0x0a000005 rfl,
   (convert_not_literal two_netdb "host".toList 0 rfl).2.2.2.1 0x0a000005 0x0a000006 [] rfl⟩

/-- C14, evaluated on the code: a slot that holds the Unix-domain address "/a"
with the matching length 4 satisfies the invariant; after the failed call with
the endpoint "nohost:80" and a resolver that finds no address it holds an
address with the Inet family tag next to the length 4, where
`sizeof(struct sockaddr_in)` is 16: the invariant is broken. -/
theorem make_addr_resolve_failure_breaks_len :
    slot_len_ok linux unix_slot
    ∧ (fcgi_util_socket_make_addr linux no_netdb ⟨100⟩ unix_slot (some "nohost:80".toList)).fr
        = { socket_addr := some ⟨64, sockaddr.inet ⟨2, (0, 80), 0, 0⟩⟩, socket_addr_len := 4 }
    ∧ ¬ slot_len_ok linux
        (fcgi_util_socket_make_addr linux no_netdb ⟨100⟩ unix_slot
          (some "nohost:80".toList)).fr := by
  decide

/-- C17, evaluated on the code: after the call with the endpoint "host:80" the
caller's buffer holds "host", the terminator written over the colon, and "80";
it no longer holds the characters it held before.  The same happens when the
call fails on the port, as with "host:0". -/
theorem make_addr_overwrites_colon :
    (fcgi_util_socket_make_addr linux one_netdb ⟨100⟩ empty_slot (some "host:80".toList)).server
        = some ("host".toList ++ NUL :: "80".toList)
    ∧ (fcgi_util_socket_make_addr linux one_netdb ⟨100⟩ empty_slot (some "host:80".toList)).server
        ≠ some "host:80".toList
    ∧ (fcgi_util_socket_make_addr linux one_netdb ⟨100⟩ empty_slot (some "host:0".toList)).server
        ≠ some "host:0".toList := by
  decide

/-! ## Lemmas on literal addresses -/

theorem digit_value_of_isdigit (c : Char) (h : isdigit c = true) :
    digit_value 10 c = some (c.toNat - 48) := by
  have h2 := h
  simp only [isdigit, Bool.and_eq_true, decide_eq_true_eq] at h2
  have h3 : c.toNat - 48 < 10 := by omega
  simp [digit_value, h, h3]

theorem digit_value_of_not_isdigit (base : Nat) (c : Char) (h : isdigit c = false)
    (hb : base ≠ 16) : digit_value base c = none := by
  simp [digit_value, h, hb]

theorem strtoul_digits_numeral (acc : Nat) (ds rest : List Char)
    (hds : ∀ c ∈ ds, isdigit c = true)
    (hrest : ∀ c, rest.head? = some c → isdigit c = false) :
    strtoul_digits 10 acc (ds ++ rest) = (acc * 10 ^ ds.length + decimal_value ds, rest) := by
  induction ds generalizing acc with
  | nil =>
    cases rest with
    | nil => simp [strtoul_digits, decimal_value_nil]
    | cons c cs =>
      simp [strtoul_digits, decimal_value_nil,
        digit_value_of_not_isdigit 10 c (hrest c rfl) (by decide)]
  | cons d ds ih =>
    have hd : isdigit d = true := hds d (by simp)
    have hds2 : ∀ c ∈ ds, isdigit c = true := fun c hc => hds c (by simp [hc])
    have hstep : strtoul_digits 10 acc (d :: ds ++ rest)
        = strtoul_digits 10 (acc * 10 + (d.toNat - 48)) (ds ++ rest) := by
      simp [strtoul_digits, digit_value_of_isdigit d hd]
    rw [hstep, ih _ hds2, decimal_value_cons, List.length_cons]
    congr 1
    ring

/-- The call `strtoul(cp, &endp, 0)` reads a decimal numeral without leading
zero as its value and stops right after it. -/
theorem strtoul_base0_numeral (s rest : List Char) (v : Nat) (hs : is_decimal_numeral s v)
    (hrest : ∀ c, rest.head? = some c → c = '.') :
    strtoul_base0 (s ++ rest) = (v, rest) := by
  obtain ⟨hne, hds, hzero, hval⟩ := hs
  have hrest2 : ∀ c, rest.head? = some c → isdigit c = false := by
    intro c hc
    rw [hrest c hc]
    decide
  cases s with
  | nil => exact absurd rfl hne
  | cons c0 s2 =>
    by_cases h0 : c0 = '0'
    · have hs2 : s2 = [] := by
        have := hzero (by simp [h0])
        simpa [h0] using this
      subst hs2
      subst h0
      have hv : v = 0 := by rw [← hval]; decide
      subst hv
      cases rest with
      | nil => decide
      | cons e r =>
        have he : e = '.' := hrest e rfl
        subst he
        cases r with
        | nil => decide
        | cons e2 r2 =>
          have h1 : digit_value 8 '0' = some 0 := by decide
          have h2 : digit_value 8 '.' = none := by decide
          simp [strtoul_base0, strtoul_digits, h1, h2]
    · have hparse := strtoul_digits_numeral 0 (c0 :: s2) rest hds hrest2
      simp only [Nat.zero_mul, Nat.zero_add, hval] at hparse
      simp only [List.cons_append] at hparse ⊢
      simp only [strtoul_base0, h0, if_false]
      exact hparse

theorem in_addr_of_parts_or (a b c d : Nat) (hd : d ≤ 255) :
    in_addr_of_parts [a, b, c] ||| d = in_addr_of_bytes a b c d := by
  have h1 : in_addr_of_parts [a, b, c] = 2 ^ 8 * (a * 2 ^ 16 + b * 2 ^ 8 + c) := by
    simp only [in_addr_of_parts, in_addr_of_bytes]
    ring
  have h2 : in_addr_of_bytes a b c d = 2 ^ 8 * (a * 2 ^ 16 + b * 2 ^ 8 + c) + d := by
    simp only [in_addr_of_bytes]
    ring
  rw [h1, h2]
  exact (Nat.mul_add_lt_is_or (by omega) _).symm

/-- One turn of the `inet_aton` loop on a decimal numeral followed by a dot. -/
theorem inet_aton_loop_dot (fuel : Nat) (parts : List Nat) (s cp2 : List Char) (v : Nat)
    (hs : is_decimal_numeral s v) (hv : v ≤ 255) (hp : parts.length ≤ 2) :
    inet_aton_loop (fuel + 1) parts (s ++ '.' :: cp2)
      = inet_aton_loop fuel (parts ++ [v]) cp2 := by
  have hstr := strtoul_base0_numeral s ('.' :: cp2) v hs (by simp)
  obtain ⟨hne, hds, _, _⟩ := hs
  cases s with
  | nil => exact absurd rfl hne
  | cons c0 s2 =>
    have hd : isdigit c0 = true := hds c0 (by simp)
    simp only [List.cons_append] at hstr ⊢
    have h1 : ¬ (v > 0xffffffff) := by omega
    have h2 : ¬ (parts.length > 2 ∨ v > 0xff) := by omega
    simp only [inet_aton_loop, hd, hstr, h1, h2, if_false, if_true, Bool.true_eq_false]

/-- The last turn of the `inet_aton` loop on a decimal numeral at the end of
the text. -/
theorem inet_aton_loop_last (fuel : Nat) (parts : List Nat) (s : List Char) (v : Nat)
    (hs : is_decimal_numeral s v) (hv : v ≤ in_addr_last_max parts.length)
    (hv2 : v ≤ 0xffffffff) :
    inet_aton_loop (fuel + 1) parts s = some (in_addr_of_parts parts ||| v) := by
  have hstr := strtoul_base0_numeral s [] v hs (by simp)
  obtain ⟨hne, hds, _, _⟩ := hs
  cases s with
  | nil => exact absurd rfl hne
  | cons c0 s2 =>
    have hd : isdigit c0 = true := hds c0 (by simp)
    simp only [List.append_nil] at hstr
    have h1 : ¬ (v > 0xffffffff) := by omega
    have h2 : ¬ (v > in_addr_last_max parts.length) := by omega
    simp only [inet_aton_loop, hd, hstr, h1, h2, if_false, Bool.true_eq_false]

/-! ## The claim on literal addresses -/

/-- C12 as stated fails.  "010.0.0.1" is a dotted-decimal string with the
components 10, 0, 0, 1, and the address stored is 8.0.0.1: `inet_aton` reads a
number with a leading zero as octal.  "08.0.0.1" has the components 8, 0, 0, 1,
and `inet_aton` rejects it (8 is no octal digit), so that the result is the
one of the name lookup: failure when the lookup fails, the lookup's address
when it gives one. -/
theorem convert_dotted_decimal_leading_zero_counterexample :
    (is_decimal_component "010".toList 10 ∧ is_decimal_component "0".toList 0
      ∧ is_decimal_component "1".toList 1 ∧ is_decimal_component "08".toList 8)
    ∧ convert_string_to_in_addr (libc_netdb (fun _ => none)) "010.0.0.1".toList 0
        = (0, 8 * 2 ^ 24 + 0 * 2 ^ 16 + 0 * 2 ^ 8 + 1)
    ∧ convert_string_to_in_addr (libc_netdb (fun _ => none)) "010.0.0.1".toList 0
        ≠ (0, 10 * 2 ^ 24 + 0 * 2 ^ 16 + 0 * 2 ^ 8 + 1)
    ∧ convert_string_to_in_addr (libc_netdb (fun _ => none)) "08.0.0.1".toList 0 = (-1, 0)
    ∧ convert_string_to_in_addr (libc_netdb one_netdb.gethostbyname) "08.0.0.1".toList 0
        = (0, 0x0a000005)
    ∧ ¬ (∀ (g : List Char → Option hostent) (addr0 : Nat) (sa sb sc sd : List Char)
          (a b c d : Nat),
          is_decimal_component sa a → is_decimal_component sb b →
          is_decimal_component sc c → is_decimal_component sd d →
          a ≤ 255 → b ≤ 255 → c ≤ 255 → d ≤ 255 →
          convert_string_to_in_addr (libc_netdb g)
              (sa ++ '.' :: (sb ++ '.' :: (sc ++ '.' :: sd))) addr0
            = (0, a * 2 ^ 24 + b * 2 ^ 16 + c * 2 ^ 8 + d)) := by
  refine ⟨by decide, by decide, by decide, by decide, by decide, ?_⟩
  intro hall
  have h := hall (fun _ => none) 0 "010".toList "0".toList "0".toList "1".toList 10 0 0 1
    (by decide) (by decide) (by decide) (by decide)
    (by decide) (by decide) (by decide) (by decide)
  revert h
  decide

/-- C12, amended: for every dotted-decimal string "a.b.c.d" whose four components
are the decimal numerals, written without leading zeros, of numbers from 0 to
255, `convert_string_to_in_addr` returns 0 and stores the address whose four
bytes in memory order are a, b, c, d (as one number, a * 2^24 + b * 2^16 +
c * 2^8 + d), and it does so for every name lookup `g` and every previous
contents of the address: the lookup is not consulted. -/
theorem convert_dotted_decimal (g : List Char → Option hostent) (addr0 : Nat)
    (sa sb sc sd : List Char) (a b c d : Nat)
    (ha : is_decimal_numeral sa a) (hb : is_decimal_numeral sb b)
    (hc : is_decimal_numeral sc c) (hd : is_decimal_numeral sd d)
    (ha2 : a ≤ 255) (hb2 : b ≤ 255) (hc2 : c ≤ 255) (hd2 : d ≤ 255) :
    convert_string_to_in_addr (libc_netdb g) (sa ++ '.' :: (sb ++ '.' :: (sc ++ '.' :: sd)))
        addr0 = (0, a * 2 ^ 24 + b * 2 ^ 16 + c * 2 ^ 8 + d)
    ∧ (convert_string_to_in_addr (libc_netdb g)
        (sa ++ '.' :: (sb ++ '.' :: (sc ++ '.' :: sd))) addr0).2 / 2 ^ 24 = a
    ∧ (convert_string_to_in_addr (libc_netdb g)
        (sa ++ '.' :: (sb ++ '.' :: (sc ++ '.' :: sd))) addr0).2 / 2 ^ 16 % 256 = b
    ∧ (convert_string_to_in_addr (libc_netdb g)
        (sa ++ '.' :: (sb ++ '.' :: (sc ++ '.' :: sd))) addr0).2 / 2 ^ 8 % 256 = c
    ∧ (convert_string_to_in_addr (libc_netdb g)
        (sa ++ '.' :: (sb ++ '.' :: (sc ++ '.' :: sd))) addr0).2 % 256 = d := by
  have hlit : inet_aton (sa ++ '.' :: (sb ++ '.' :: (sc ++ '.' :: sd)))
      = some (a * 2 ^ 24 + b * 2 ^ 16 + c * 2 ^ 8 + d) := by
    unfold inet_aton
    rw [inet_aton_loop_dot 3 [] sa _ a ha ha2 (by simp),
      inet_aton_loop_dot 2 _ sb _ b hb hb2 (by simp),
      inet_aton_loop_dot 1 _ sc _ c hc hc2 (by simp),
      inet_aton_loop_last 0 _ sd d hd (by simp [in_addr_last_max]; omega) (by omega)]
    simp only [List.nil_append, List.cons_append, in_addr_of_parts_or a b c d hd2,
      in_addr_of_bytes]
  have hres : convert_string_to_in_addr (libc_netdb g)
      (sa ++ '.' :: (sb ++ '.' :: (sc ++ '.' :: sd))) addr0
      = (0, a * 2 ^ 24 + b * 2 ^ 16 + c * 2 ^ 8 + d) := by
    simp [convert_string_to_in_addr, libc_netdb, hlit]
  rw [hres]
  refine ⟨rfl, ?_, ?_, ?_, ?_⟩ <;> norm_num <;> omega

/-- Witness of C12 amended: "10.0.0.5" with a name lookup that would fail; the
address stored is 0x0a000005. -/
theorem convert_dotted_decimal_witness :
    convert_string_to_in_addr (libc_netdb (fun _ => none)) "10.0.0.5".toList 0
      = (0, 0x0a000005) :=
  (convert_dotted_decimal (fun _ => none) 0 "10".toList "0".toList "0".toList "5".toList
    10 0 0 5 (by decide) (by decide) (by decide) (by decide)
    (by decide) (by decide) (by decide) (by decide)).1

/-! ## Lemmas on the bytes of the storage -/

theorem write_bytes_congr (m m2 : Nat → Nat) (off : Nat) (bs : List Nat) (i : Nat)
    (h : m i = m2 i) : write_bytes m off bs i = write_bytes m2 off bs i := by
  unfold write_bytes
  by_cases hin : off ≤ i ∧ i < off + bs.length
  · simp [hin]
  · simp [hin, h]

theorem write_bytes_of_ge (m : Nat → Nat) (off : Nat) (bs : List Nat) (i : Nat)
    (h : off + bs.length ≤ i) : write_bytes m off bs i = m i := by
  unfold write_bytes
  have hin : ¬ (off ≤ i ∧ i < off + bs.length) := by omega
  simp [hin]

theorem family_bytes_length (width value : Nat) : (family_bytes width value).length = width := by
  simp [family_bytes]

theorem slot_storage_front (p : apr_pool_t) (q : mem_ptr) (size i : Nat) (h : i < size) :
    (slot_storage p (some q) size).mem i = (slot_storage p none size).mem i := by
  simp [slot_storage, memset_zero, h]

theorem slot_storage_rest (p : apr_pool_t) (q : mem_ptr) (size i : Nat) (h : size ≤ i) :
    (slot_storage p (some q) size).mem i = q.mem i := by
  have h2 : ¬ (i < size) := by omega
  simp [slot_storage, memset_zero, h2]

/-- A successful call on the bytes of the storage: the storage of the slot is
cleared over the size of the structure built, and then written by stores that
stay below that size and do not depend on what the storage held. -/
theorem make_addr_mem_success_shape (pf : Platform) (nd : Netdb) (p : apr_pool_t)
    (fr : mem_request) (server : Option (List Char)) (h8 : 8 ≤ pf.sizeof_sockaddr_in)
    (hsucc : (fcgi_util_socket_make_addr_mem pf nd p fr server).err = none) :
    ∃ (writes : (Nat → Nat) → (Nat → Nat)) (len : Int),
      (∀ m m2 i, m i = m2 i → writes m i = writes m2 i)
      ∧ (∀ m i, sizeof_built pf server ≤ i → writes m i = m i)
      ∧ (∀ fr2 : mem_request,
          (fcgi_util_socket_make_addr_mem pf nd p fr2 server).err = none
          ∧ (fcgi_util_socket_make_addr_mem pf nd p fr2 server).fr.socket_addr_len = len
          ∧ (fcgi_util_socket_make_addr_mem pf nd p fr2 server).fr.socket_addr.map mem_ptr.addr
              = some (slot_storage p fr2.socket_addr (sizeof_built pf server)).addr
          ∧ ∀ i, (fcgi_util_socket_make_addr_mem pf nd p fr2 server).fr.socket_addr.map
                (fun x => x.mem i)
              = some (writes (slot_storage p fr2.socket_addr (sizeof_built pf server)).mem i)) := by
  match server with
  | none => simp [fcgi_util_socket_make_addr_mem] at hsucc
  | some [] => simp [fcgi_util_socket_make_addr_mem] at hsucc
  | some (c :: cs) =>
    by_cases hc : c = '/'
    · subst hc
      by_cases hlen : pf.sizeof_sun_path ≤ strlen ('/' :: cs)
      · simp [fcgi_util_socket_make_addr_mem, fcgi_util_socket_make_domain_addr_mem, hlen]
          at hsucc
      · refine ⟨fun m => write_bytes
            (write_bytes m 0 (family_bytes pf.offsetof_sun_path pf.AF_UNIX))
            pf.offsetof_sun_path (('/' :: cs).map Char.toNat ++ [0]),
          ((pf.offsetof_sun_path + strlen ('/' :: cs) : Nat) : Int), ?_, ?_, ?_⟩
        · intro m m2 i h
          exact write_bytes_congr _ _ _ _ _ (write_bytes_congr _ _ _ _ _ h)
        · intro m i hi
          have hsz : sizeof_built pf (some ('/' :: cs))
              = pf.offsetof_sun_path + pf.sizeof_sun_path := by
            simp [sizeof_built, sizeof_sockaddr_un]
          rw [hsz] at hi
          have hl : (('/' :: cs).map Char.toNat ++ [0]).length = strlen ('/' :: cs) + 1 := by
            simp [strlen]
          beta_reduce
          rw [write_bytes_of_ge _ _ _ _ (by rw [hl]; omega),
            write_bytes_of_ge _ _ _ _ (by rw [family_bytes_length]; omega)]
        · intro fr2
          have hsz : sizeof_built pf (some ('/' :: cs)) = sizeof_sockaddr_un pf := by
            simp [sizeof_built]
          rw [hsz]
          simp [fcgi_util_socket_make_addr_mem, fcgi_util_socket_make_domain_addr_mem, hlen]
    · have hsz : sizeof_built pf (some (c :: cs)) = pf.sizeof_sockaddr_in := by
        simp [sizeof_built, hc]
      cases hk : strchr (c :: cs) ':' with
      | none => simp [fcgi_util_socket_make_addr_mem, hc, hk] at hsucc
      | some k =>
        by_cases hp : to_ushort (atoi (((c :: cs).set k NUL).drop (k + 1))) ≤ 0
        · simp [fcgi_util_socket_make_addr_mem, hc, hk, hp] at hsucc
        · by_cases hst : (convert_string_to_in_addr nd (((c :: cs).set k NUL).take k) 0).1 = -1
          · simp [fcgi_util_socket_make_addr_mem, fcgi_util_socket_make_inet_addr_mem, hc, hk,
              hp, hst] at hsucc
          · refine ⟨fun m => write_bytes
                (write_bytes (write_bytes m 0 (family_bytes 2 pf.AF_INET)) 2
                  [(htons (to_ushort (atoi (((c :: cs).set k NUL).drop (k + 1))))).1,
                   (htons (to_ushort (atoi (((c :: cs).set k NUL).drop (k + 1))))).2])
                4 (in_addr_bytes
                  (convert_string_to_in_addr nd (((c :: cs).set k NUL).take k) 0).2),
              (pf.sizeof_sockaddr_in : Int), ?_, ?_, ?_⟩
            · intro m m2 i h
              exact write_bytes_congr _ _ _ _ _
                (write_bytes_congr _ _ _ _ _ (write_bytes_congr _ _ _ _ _ h))
            · intro m i hi
              rw [hsz] at hi
              beta_reduce
              rw [write_bytes_of_ge _ _ _ _ (by simp [in_addr_bytes]; omega),
                write_bytes_of_ge _ _ _ _ (by simp; omega),
                write_bytes_of_ge _ _ _ _ (by rw [family_bytes_length]; omega)]
            · intro fr2
              rw [hsz]
              simp [fcgi_util_socket_make_addr_mem, fcgi_util_socket_make_inet_addr_mem, hc, hk,
                hp, hst]

/-- The translation on bytes and the translation on address structures agree on
the returned message, on the caller's buffer, on the recorded length and on
the pointer left in the slot. -/
theorem make_addr_mem_agrees (pf : Platform) (nd : Netdb) (p : apr_pool_t)
    (fr : fcgi_request) (mfr : mem_request) (server : Option (List Char))
    (hp : mfr.socket_addr.map mem_ptr.addr = fr.socket_addr.map sockaddr_ptr.addr)
    (hl : mfr.socket_addr_len = fr.socket_addr_len) :
    (fcgi_util_socket_make_addr_mem pf nd p mfr server).err
        = (fcgi_util_socket_make_addr pf nd p fr server).err
    ∧ (fcgi_util_socket_make_addr_mem pf nd p mfr server).server
        = (fcgi_util_socket_make_addr pf nd p fr server).server
    ∧ (fcgi_util_socket_make_addr_mem pf nd p mfr server).fr.socket_addr_len
        = (fcgi_util_socket_make_addr pf nd p fr server).fr.socket_addr_len
    ∧ (fcgi_util_socket_make_addr_mem pf nd p mfr server).fr.socket_addr.map mem_ptr.addr
        = (fcgi_util_socket_make_addr pf nd p fr server).fr.socket_addr.map
            sockaddr_ptr.addr := by
  have haddr : ∀ size, (slot_storage p mfr.socket_addr size).addr
      = (match fr.socket_addr with
          | none => p.brk
          | some q => q.addr) := by
    intro size
    cases hm : mfr.socket_addr with
    | none =>
      cases hf : fr.socket_addr with
      | none => rfl
      | some q => rw [hm, hf] at hp; simp at hp
    | some mq =>
      cases hf : fr.socket_addr with
      | none => rw [hm, hf] at hp; simp at hp
      | some q =>
        rw [hm, hf] at hp
        simpa [slot_storage] using hp
  match server with
  | none => exact ⟨rfl, rfl, hl, hp⟩
  | some [] => exact ⟨rfl, rfl, hl, hp⟩
  | some (c :: cs) =>
    by_cases hc : c = '/'
    · subst hc
      by_cases hlen : pf.sizeof_sun_path ≤ strlen ('/' :: cs)
      · simp [fcgi_util_socket_make_addr_mem, fcgi_util_socket_make_domain_addr_mem,
          fcgi_util_socket_make_addr, fcgi_util_socket_make_domain_addr, hlen, hl, hp]
      · simp [fcgi_util_socket_make_addr_mem, fcgi_util_socket_make_domain_addr_mem,
          fcgi_util_socket_make_addr, fcgi_util_socket_make_domain_addr, hlen, haddr,
          SUN_LEN]
    · cases hk : strchr (c :: cs) ':' with
      | none =>
        simp [fcgi_util_socket_make_addr_mem, fcgi_util_socket_make_addr, hc, hk, hl, hp]
      | some k =>
        by_cases hport : to_ushort (atoi (((c :: cs).set k NUL).drop (k + 1))) ≤ 0
        · simp [fcgi_util_socket_make_addr_mem, fcgi_util_socket_make_addr, hc, hk, hport, hl,
            hp]
        · by_cases hst : (convert_string_to_in_addr nd (((c :: cs).set k NUL).take k) 0).1 = -1
          · simp [fcgi_util_socket_make_addr_mem, fcgi_util_socket_make_inet_addr_mem,
              fcgi_util_socket_make_addr, fcgi_util_socket_make_inet_addr, hc, hk, hport, hst,
              haddr, hl]
          · simp [fcgi_util_socket_make_addr_mem, fcgi_util_socket_make_inet_addr_mem,
              fcgi_util_socket_make_addr, fcgi_util_socket_make_inet_addr, hc, hk, hport, hst,
              haddr]

theorem slot_storage_zero (p : apr_pool_t) (sa : Option mem_ptr) (size i : Nat)
    (h : i < size) : (slot_storage p sa size).mem i = 0 := by
  cases sa with
  | none => rfl
  | some q => simp [slot_storage, memset_zero, h]

/-- A store right after the bytes `l` extends the list of bytes the memory holds. -/
theorem write_bytes_append (m : Nat → Nat) (l bs : List Nat) (i : Nat)
    (h : m i = l.getD i 0) : write_bytes m l.length bs i = (l ++ bs).getD i 0 := by
  unfold write_bytes
  by_cases h1 : i < l.length
  · have hin : ¬ (l.length ≤ i ∧ i < l.length + bs.length) := by omega
    rw [if_neg hin, h, List.getD_append _ _ _ _ h1]
  · by_cases h2 : i < l.length + bs.length
    · have hin : l.length ≤ i ∧ i < l.length + bs.length := by omega
      rw [if_pos hin, List.getD_append_right _ _ _ _ (by omega)]
    · have hin : ¬ (l.length ≤ i ∧ i < l.length + bs.length) := by omega
      rw [if_neg hin, h, List.getD_eq_default _ _ (by omega),
        List.getD_eq_default _ _ (by simp; omega)]

theorem getD_append_zero (l : List Nat) (i : Nat) : (l ++ [0]).getD i 0 = l.getD i 0 := by
  by_cases h1 : i < l.length
  · rw [List.getD_append _ _ _ _ h1]
  · rw [List.getD_eq_default l 0 (by omega), List.getD_append_right _ _ _ _ (by omega)]
    cases i - l.length <;> simp

/-- Below the size of the structure built, the bytes a successful call leaves in
the storage are the bytes of the address structure that the translation on
address structures leaves in the slot, followed by zero bytes. -/
theorem make_addr_mem_encodes (pf : Platform) (nd : Netdb) (p : apr_pool_t)
    (fr : fcgi_request) (mfr : mem_request) (server : Option (List Char))
    (hsucc : (fcgi_util_socket_make_addr pf nd p fr server).err = none) :
    ∀ i, i < sizeof_built pf server →
      (fcgi_util_socket_make_addr_mem pf nd p mfr server).fr.socket_addr.map (fun x => x.mem i)
        = (fcgi_util_socket_make_addr pf nd p fr server).fr.socket_addr.map
            (fun x => (sockaddr_bytes pf x.mem).getD i 0) := by
  intro i hi
  match server with
  | none => simp [fcgi_util_socket_make_addr] at hsucc
  | some [] => simp [fcgi_util_socket_make_addr] at hsucc
  | some (c :: cs) =>
    by_cases hc : c = '/'
    · subst hc
      have hsz : sizeof_built pf (some ('/' :: cs)) = sizeof_sockaddr_un pf := by
        simp [sizeof_built]
      rw [hsz] at hi
      by_cases hlen : pf.sizeof_sun_path ≤ strlen ('/' :: cs)
      · simp [fcgi_util_socket_make_addr, fcgi_util_socket_make_domain_addr, hlen] at hsucc
      · have h0 := slot_storage_zero p mfr.socket_addr (sizeof_sockaddr_un pf) i hi
        have h1 := write_bytes_append (slot_storage p mfr.socket_addr (sizeof_sockaddr_un pf)).mem
          [] (family_bytes pf.offsetof_sun_path pf.AF_UNIX) i (by simpa using h0)
        have h2 := write_bytes_append _ _ (('/' :: cs).map Char.toNat ++ [0]) i h1
        rw [List.nil_append, family_bytes_length, ← List.append_assoc, getD_append_zero] at h2
        simp only [List.length_nil] at h2
        simp only [fcgi_util_socket_make_addr_mem, fcgi_util_socket_make_domain_addr_mem,
          fcgi_util_socket_make_addr, fcgi_util_socket_make_domain_addr, hlen, if_true,
          ge_iff_le, if_false, Option.map_some', sockaddr_bytes]
        exact congrArg some h2
    · have hsz : sizeof_built pf (some (c :: cs)) = pf.sizeof_sockaddr_in := by
        simp [sizeof_built, hc]
      rw [hsz] at hi
      cases hk : strchr (c :: cs) ':' with
      | none => simp [fcgi_util_socket_make_addr, hc, hk] at hsucc
      | some k =>
        by_cases hp : to_ushort (atoi (((c :: cs).set k NUL).drop (k + 1))) ≤ 0
        · simp [fcgi_util_socket_make_addr, hc, hk, hp] at hsucc
        · by_cases hst : (convert_string_to_in_addr nd (((c :: cs).set k NUL).take k) 0).1 = -1
          · simp [fcgi_util_socket_make_addr, fcgi_util_socket_make_inet_addr, hc, hk, hp, hst]
              at hsucc
          · have h0 := slot_storage_zero p mfr.socket_addr pf.sizeof_sockaddr_in i hi
            have h1 := write_bytes_append (slot_storage p mfr.socket_addr pf.sizeof_sockaddr_in).mem
              [] (family_bytes 2 pf.AF_INET) i (by simpa using h0)
            have h2 := write_bytes_append _ _
              [(htons (to_ushort (atoi (((c :: cs).set k NUL).drop (k + 1))))).1,
               (htons (to_ushort (atoi (((c :: cs).set k NUL).drop (k + 1))))).2] i h1
            have h3 := write_bytes_append _ _ (in_addr_bytes
              (convert_string_to_in_addr nd (((c :: cs).set k NUL).take k) 0).2) i h2
            simp only [List.nil_append, family_bytes_length, List.length_nil, List.length_append,
              List.length_cons, Nat.zero_add] at h3
            simp only [fcgi_util_socket_make_addr_mem, fcgi_util_socket_make_inet_addr_mem,
              fcgi_util_socket_make_addr, fcgi_util_socket_make_inet_addr, hc, hk, hp, hst,
              if_false, Option.map_some', sockaddr_bytes]
            exact congrArg some h3

/-! ## The claim on slot reuse -/

/-- C15 as stated fails.  The slot holds the Unix-domain address
"/var/run/fastcgi/app.sock", built from the empty slot; the endpoint "host:80"
then succeeds and keeps the pointer, and the first 16 bytes of the storage hold
the Inet address, but the bytes from offset 16 on still hold "gi/app.sock" of
the old path, the very bytes they held before the call: `memset` clears
`sizeof(struct sockaddr_in)` bytes only, so bytes of the previous contents
survive. -/
theorem make_addr_reuse_leaves_bytes_counterexample :
    (fcgi_util_socket_make_addr_mem linux one_netdb ⟨200⟩ unix_mem_slot
        (some "host:80".toList)).err = none
    ∧ unix_mem_slot.socket_addr.map mem_ptr.addr = some 100
    ∧ (fcgi_util_socket_make_addr_mem linux one_netdb ⟨200⟩ unix_mem_slot
        (some "host:80".toList)).fr.socket_addr.map mem_ptr.addr = some 100
    ∧ (fcgi_util_socket_make_addr_mem linux one_netdb ⟨200⟩ unix_mem_slot
        (some "host:80".toList)).fr.socket_addr.map (fun q => (List.range 16).map q.mem)
        = some [2, 0, 0, 80, 10, 0, 0, 5, 0, 0, 0, 0, 0, 0, 0, 0]
    ∧ unix_mem_slot.socket_addr.map (fun q => (List.range 11).map (fun k => q.mem (16 + k)))
        = some ("gi/app.sock".toList.map Char.toNat)
    ∧ (fcgi_util_socket_make_addr_mem linux one_netdb ⟨200⟩ unix_mem_slot
        (some "host:80".toList)).fr.socket_addr.map
          (fun q => (List.range 11).map (fun k => q.mem (16 + k)))
        = some ("gi/app.sock".toList.map Char.toNat) := by
  decide

/-- C15, amended: when the slot holds a non-null address and construction
succeeds, the slot keeps its pointer (the storage is reused), the same call on
an empty slot succeeds as well, the recorded length is the same, and every
byte of the storage below the size of the structure built (`struct
sockaddr_un` for a path, `struct sockaddr_in` for host:port) is the byte built
from the empty slot, whatever the storage held before; the bytes of the
storage from that size on are left as they were. -/
theorem make_addr_mem_reuse (pf : Platform) (nd : Netdb) (p : apr_pool_t)
    (q : mem_ptr) (len len0 : Int) (server : Option (List Char))
    (h8 : 8 ≤ pf.sizeof_sockaddr_in)
    (hsucc : (fcgi_util_socket_make_addr_mem pf nd p
      { socket_addr := some q, socket_addr_len := len } server).err = none) :
    (fcgi_util_socket_make_addr_mem pf nd p
        { socket_addr := none, socket_addr_len := len0 } server).err = none
    ∧ (fcgi_util_socket_make_addr_mem pf nd p
        { socket_addr := some q, socket_addr_len := len } server).fr.socket_addr.map
          mem_ptr.addr = some q.addr
    ∧ (fcgi_util_socket_make_addr_mem pf nd p
        { socket_addr := some q, socket_addr_len := len } server).fr.socket_addr_len
        = (fcgi_util_socket_make_addr_mem pf nd p
            { socket_addr := none, socket_addr_len := len0 } server).fr.socket_addr_len
    ∧ (∀ i, i < sizeof_built pf server →
        (fcgi_util_socket_make_addr_mem pf nd p
            { socket_addr := some q, socket_addr_len := len } server).fr.socket_addr.map
              (fun x => x.mem i)
          = (fcgi_util_socket_make_addr_mem pf nd p
              { socket_addr := none, socket_addr_len := len0 } server).fr.socket_addr.map
                (fun x => x.mem i))
    ∧ (∀ i, sizeof_built pf server ≤ i →
        (fcgi_util_socket_make_addr_mem pf nd p
            { socket_addr := some q, socket_addr_len := len } server).fr.socket_addr.map
              (fun x => x.mem i)
          = some (q.mem i)) := by
  obtain ⟨writes, l, hcongr, hrest, hshape⟩ :=
    make_addr_mem_success_shape pf nd p _ server h8 hsucc
  refine ⟨(hshape _).1, ?_, ?_, ?_, ?_⟩
  · rw [(hshape _).2.2.1]; rfl
  · rw [(hshape _).2.1, (hshape _).2.1]
  · intro i hi
    rw [(hshape _).2.2.2 i, (hshape _).2.2.2 i]
    exact congrArg some (hcongr _ _ i (slot_storage_front p q _ i hi))
  · intro i hi
    rw [(hshape _).2.2.2 i, hrest _ i hi]
    exact congrArg some (slot_storage_rest p q _ i hi)

/-- Witness of C15 amended: the slot points at the address 100 at storage filled
with the byte 65, and the endpoint "host:80" resolves.  The call on the empty
slot succeeds, the pointer is kept, the byte at offset 3 (the low byte of the
port) is the one built from the empty slot, and the byte at offset 16 is still
65. -/
theorem make_addr_mem_reuse_witness :
    (fcgi_util_socket_make_addr_mem linux one_netdb ⟨200⟩
        { socket_addr := none, socket_addr_len := 0 } (some "host:80".toList)).err = none
    ∧ (fcgi_util_socket_make_addr_mem linux one_netdb ⟨200⟩
        { socket_addr := some ⟨100, fun _ => 65⟩, socket_addr_len := 27 }
        (some "host:80".toList)).fr.socket_addr.map mem_ptr.addr = some 100
    ∧ (fcgi_util_socket_make_addr_mem linux one_netdb ⟨200⟩
        { socket_addr := some ⟨100, fun _ => 65⟩, socket_addr_len := 27 }
        (some "host:80".toList)).fr.socket_addr.map (fun x => x.mem 3)
        = (fcgi_util_socket_make_addr_mem linux one_netdb ⟨200⟩
            { socket_addr := none, socket_addr_len := 0 }
            (some "host:80".toList)).fr.socket_addr.map (fun x => x.mem 3)
    ∧ (fcgi_util_socket_make_addr_mem linux one_netdb ⟨200⟩
        { socket_addr := some ⟨100, fun _ => 65⟩, socket_addr_len := 27 }
        (some "host:80".toList)).fr.socket_addr.map (fun x => x.mem 16) = some 65 :=
  ⟨(make_addr_mem_reuse linux one_netdb ⟨200⟩ ⟨100, fun _ => 65⟩ 27 0
      (some "host:80".toList) (by decide) (by decide)).1,
   (make_addr_mem_reuse linux one_netdb ⟨200⟩ ⟨100, fun _ => 65⟩ 27 0
      (some "host:80".toList) (by decide) (by decide)).2.1,
   (make_addr_mem_reuse linux one_netdb ⟨200⟩ ⟨100, fun _ => 65⟩ 27 0
      (some "host:80".toList) (by decide) (by decide)).2.2.2.1 3 (by decide),
   (make_addr_mem_reuse linux one_netdb ⟨200⟩ ⟨100, fun _ => 65⟩ 27 0
      (some "host:80".toList) (by decide) (by decide)).2.2.2.2 16 (by decide)⟩

end FcgiUtil
